import Mathlib

/-!
# Verification of the web_content_agent extraction/rendering core

Shallow embedding of `src/processor/content_processor.py` and
`src/formatter/output_formatter.py`.  Python strings are modelled as
`List Char` (Python `len`, slicing and concatenation are all
codepoint-based, as here).  The parsed HTML document (BeautifulSoup's
tree) is modelled as a first-child / next-sibling forest `Dom`.
-/

/-- A Python string, as its list of codepoints. -/
abbrev PyStr := List Char

/-- Embed a Lean string literal as a `PyStr`. -/
def pys (s : String) : PyStr := s.data

/-- Whitespace, as recognised by Python's `str.strip()` and `\s`
(ASCII subset: space, tab, LF, CR, VT, FF). -/
def isPySpace (c : Char) : Bool :=
  c = ' ' || c = '\t' || c = '\n' || c = '\r' || c = '\x0b' || c = '\x0c'

/-- Python `str.lstrip()`. -/
def pyLstrip (t : PyStr) : PyStr := t.dropWhile isPySpace

/-- Python `str.rstrip()`. -/
def pyRstrip (t : PyStr) : PyStr := (t.reverse.dropWhile isPySpace).reverse

/-- Python `str.strip()`. -/
def pyStrip (t : PyStr) : PyStr := pyRstrip (pyLstrip t)

/-- State-machine core of `re.sub(r'\s+', ' ', _)`: `sawWs` records whether
the previous character was whitespace (so the run is already replaced). -/
def collapseWsGo (sawWs : Bool) : PyStr → PyStr
  | [] => []
  | c :: cs =>
    if isPySpace c then
      if sawWs then collapseWsGo true cs else ' ' :: collapseWsGo true cs
    else c :: collapseWsGo false cs

/-- Models `re.sub(r'\s+', ' ', t)`: every maximal whitespace run becomes one space. -/
def collapseWs (t : PyStr) : PyStr := collapseWsGo false t

/-- The control characters removed by `_clean_text`'s second substitution:
`[\x00-\x08\x0b\x0c\x0e-\x1f\x7f-\x9f]`. -/
def isCtrlRemoved (c : Char) : Bool :=
  (c.toNat ≤ 0x08) || c.toNat = 0x0b || c.toNat = 0x0c ||
  (0x0e ≤ c.toNat && c.toNat ≤ 0x1f) || (0x7f ≤ c.toNat && c.toNat ≤ 0x9f)

/-- Models `ContentProcessor._clean_text`: empty in, empty out; otherwise strip,
collapse whitespace runs to single spaces, and drop control characters. -/
def clean_text (t : PyStr) : PyStr :=
  if t = [] then []
  else (collapseWs (pyStrip t)).filter (fun c => !(isCtrlRemoved c))

example : clean_text (pys "  a \n\n  b ") = pys "a b" := by decide
example : pyStrip (pys " x ") = pys "x" := by decide

/-- Python `str.split()` (no argument): split on whitespace runs, dropping
empty pieces.  Used for word counts and for BeautifulSoup's multi-valued
`class` attribute. -/
def pySplitWsGo (cur : PyStr) : PyStr → List PyStr
  | [] => if cur = [] then [] else [cur.reverse]
  | c :: cs =>
    if isPySpace c then
      if cur = [] then pySplitWsGo [] cs else cur.reverse :: pySplitWsGo [] cs
    else pySplitWsGo (c :: cur) cs

def pySplitWs (t : PyStr) : List PyStr := pySplitWsGo [] t

/-- Python `sep.join(parts)`. -/
def pyJoin (sep : PyStr) : List PyStr → PyStr
  | [] => []
  | [p] => p
  | p :: ps => p ++ sep ++ pyJoin sep ps

/-- Python `s.split(sep)` for a single-character separator: split at every
occurrence, keeping empty pieces (also models `re.split` on a character
class, via a membership predicate). -/
def pySplitCharGo (isSep : Char → Bool) (cur : PyStr) : PyStr → List PyStr
  | [] => [cur.reverse]
  | c :: cs =>
    if isSep c then cur.reverse :: pySplitCharGo isSep [] cs
    else pySplitCharGo isSep (c :: cur) cs

def pySplitChar (isSep : Char → Bool) (t : PyStr) : List PyStr :=
  pySplitCharGo isSep [] t

/-- Python `str.lower()` (character-wise). -/
def pyLower (t : PyStr) : PyStr := t.map Char.toLower

/-- Models `needle` occurs starting at the head of `haystack`. -/
def startsWithSeq (needle haystack : PyStr) : Bool :=
  match needle, haystack with
  | [], _ => true
  | _ :: _, [] => false
  | n :: ns, h :: hs => n = h && startsWithSeq ns hs

/-- Python `needle in haystack` on strings: contiguous-substring test. -/
def pyContains (haystack needle : PyStr) : Bool :=
  match haystack with
  | [] => needle = []
  | _ :: hs => startsWithSeq needle haystack || pyContains hs needle

example : pyContains (pys "abcd") (pys "bc") = true := by decide
example : pyContains (pys "abcd") (pys "ca") = false := by decide

example : pySplitWs (pys "  a  bc ") = [pys "a", pys "bc"] := by decide
example : pySplitChar (fun c => c = ',') (pys "a,,b") = [pys "a", pys "", pys "b"] := by decide

/-!
## The document tree

BeautifulSoup's parsed tree, in first-child / next-sibling form: a `Dom`
value is a *forest* (a node together with its right siblings). -/

inductive Dom where
  | nil : Dom
  | text (s : PyStr) (sib : Dom) : Dom
  | elem (tag : PyStr) (attrs : List (PyStr × PyStr)) (child : Dom) (sib : Dom) : Dom
deriving DecidableEq, Repr

/-- An element, detached from its siblings: tag name, attributes, children. -/
structure Elem where
  tag : PyStr
  attrs : List (PyStr × PyStr)
  child : Dom
deriving DecidableEq, Repr

/-- Models `element.get(key)`: first attribute with the given name. -/
def attrGet (attrs : List (PyStr × PyStr)) (key : PyStr) : Option PyStr :=
  match attrs.find? (fun kv => kv.1 = key) with
  | some kv => some kv.2
  | none => none

/-- Models `element.get(key, default)`. -/
def attrGetD (attrs : List (PyStr × PyStr)) (key : PyStr) (dflt : PyStr) : PyStr :=
  (attrGet attrs key).getD dflt

/-- Whether an attribute is present (BeautifulSoup `href=True` filters). -/
def attrHas (attrs : List (PyStr × PyStr)) (key : PyStr) : Bool :=
  (attrGet attrs key).isSome

/-- All text-node strings of a forest, in document order. -/
def textsOf : Dom → List PyStr
  | .nil => []
  | .text s sib => s :: textsOf sib
  | .elem _ _ child sib => textsOf child ++ textsOf sib

/-- BeautifulSoup `element.get_text(strip=True)`: each descendant string
stripped, empties dropped, the rest concatenated in order. -/
def getTextStrip (e : Elem) : PyStr :=
  (((textsOf e.child).map pyStrip).filter (fun s => s ≠ [])).flatten

/-- All elements of a forest in document (pre-order) order. -/
def allElems : Dom → List Elem
  | .nil => []
  | .text _ sib => allElems sib
  | .elem t a child sib => ⟨t, a, child⟩ :: (allElems child ++ allElems sib)

/-- Models `soup.find_all(pred)` over a forest. -/
def findAllP (p : Elem → Bool) (d : Dom) : List Elem := (allElems d).filter p

/-- Models `soup.find(pred)` / `select_one`: first matching element in pre-order. -/
def findFirstP (p : Elem → Bool) : Dom → Option Elem
  | .nil => none
  | .text _ sib => findFirstP p sib
  | .elem t a child sib =>
    if p ⟨t, a, child⟩ then some ⟨t, a, child⟩
    else match findFirstP p child with
         | some e => some e
         | none => findFirstP p sib

/-- The CSS selectors used by `ContentProcessor` (tag, `meta[k="v"]`-style
attribute selectors, `.class` and `#id`). -/
inductive Selector where
  | tagSel (t : PyStr) : Selector
  | attrSel (t : PyStr) (key val : PyStr) : Selector
  | anyAttrSel (key val : PyStr) : Selector
  | classSel (cls : PyStr) : Selector
  | idSel (id : PyStr) : Selector
deriving DecidableEq, Repr

/-- BeautifulSoup's `class` list: the attribute value split on whitespace. -/
def classList (attrs : List (PyStr × PyStr)) : List PyStr :=
  match attrGet attrs (pys "class") with
  | some v => pySplitWs v
  | none => []

/-- Whether an element matches a selector. -/
def selMatches : Selector → Elem → Bool
  | .tagSel t, e => e.tag = t
  | .attrSel t key val, e => e.tag = t && attrGet e.attrs key = some val
  | .anyAttrSel key val, e => attrGet e.attrs key = some val
  | .classSel cls, e => (classList e.attrs).contains cls
  | .idSel i, e => attrGet e.attrs (pys "id") = some i

/-- Models `soup.select_one(sel)`. -/
def selectOne (sel : Selector) (d : Dom) : Option Elem :=
  findFirstP (selMatches sel) d

/-- Models `soup.select(sel)`: all matches in document order. -/
def selectAll (sel : Selector) (d : Dom) : List Elem :=
  findAllP (selMatches sel) d

/-!
## Element Filter (`ContentProcessor._remove_unwanted_elements`)
-/

/-- Models `self.remove_tags` from the source. -/
def remove_tags_list : List PyStr :=
  [pys "script", pys "style", pys "nav", pys "header", pys "footer", pys "aside",
   pys "advertisement", pys "ads", pys "sidebar", pys "menu", pys "comment"]

/-- Models `self.remove_classes` from the source. -/
def remove_classes_list : List PyStr :=
  [pys "nav", pys "menu", pys "sidebar", pys "footer", pys "header", pys "ad",
   pys "ads", pys "advertisement", pys "comment", pys "share", pys "social",
   pys "related", pys "recommend", pys "popup", pys "modal"]

/-- One iteration of the first loop: `for tag in soup.find_all(tag_name):
tag.decompose()` — every element named `tg` is deleted with its subtree. -/
def removeTag (tg : PyStr) : Dom → Dom
  | .nil => .nil
  | .text s sib => .text s (removeTag tg sib)
  | .elem t a child sib =>
    if t = tg then removeTag tg sib
    else .elem t a (removeTag tg child) (removeTag tg sib)

/-- Removal of every element whose tag is in `tags` (with its subtree). -/
def removeTagsIn (tags : List PyStr) : Dom → Dom
  | .nil => .nil
  | .text s sib => .text s (removeTagsIn tags sib)
  | .elem t a child sib =>
    if t ∈ tags then removeTagsIn tags sib
    else .elem t a (removeTagsIn tags child) (removeTagsIn tags sib)

/-- The class-denylist test of the second loop: the element has a `class`
attribute and `' '.join(classes).lower()` contains some denylisted keyword. -/
def classDenied (kws : List PyStr) (attrs : List (PyStr × PyStr)) : Bool :=
  attrHas attrs (pys "class") &&
  kws.any (fun kw => pyContains (pyLower (pyJoin (pys " ") (classList attrs))) kw)

/-- The second loop: every element matching `classDenied` is deleted. -/
def removeClassDenied (kws : List PyStr) : Dom → Dom
  | .nil => .nil
  | .text s sib => .text s (removeClassDenied kws sib)
  | .elem t a child sib =>
    if classDenied kws a then removeClassDenied kws sib
    else .elem t a (removeClassDenied kws child) (removeClassDenied kws sib)

/-- Models `ContentProcessor._remove_unwanted_elements`: the per-tag removal loop
(a fold over `remove_tags`), then the class-keyword removal pass. -/
def remove_unwanted_elements (d : Dom) : Dom :=
  removeClassDenied remove_classes_list
    (remove_tags_list.foldl (fun s tg => removeTag tg s) d)

/-- Folding one more single-tag pass extends the removed-tag set. -/
theorem removeTag_removeTagsIn (tg : PyStr) (l : List PyStr) (d : Dom) :
    removeTag tg (removeTagsIn l d) = removeTagsIn (l ++ [tg]) d := by
  induction d with
  | nil => rfl
  | text s sib ih => simp [removeTag, removeTagsIn, ih]
  | elem t a child sib ihc ihs =>
    by_cases hl : t ∈ l
    · simp [removeTagsIn, hl, ihs, List.mem_append, hl]
    · by_cases ht : t = tg
      · subst ht
        simp [removeTagsIn, hl, removeTag, ihs, List.mem_append]
      · simp [removeTagsIn, hl, removeTag, ht, ihc, ihs, List.mem_append]

theorem removeTagsIn_nil_tags (d : Dom) : removeTagsIn [] d = d := by
  induction d with
  | nil => rfl
  | text s sib ih => simp [removeTagsIn, ih]
  | elem t a child sib ihc ihs => simp [removeTagsIn, ihc, ihs]

/-- The source's per-tag loop equals membership-based removal. -/
theorem foldl_removeTag_eq (rest : List PyStr) : ∀ (l : List PyStr) (d : Dom),
    rest.foldl (fun s tg => removeTag tg s) (removeTagsIn l d)
      = removeTagsIn (l ++ rest) d := by
  induction rest with
  | nil => intro l d; simp
  | cons tg rest ih =>
    intro l d
    have h1 : removeTag tg (removeTagsIn l d) = removeTagsIn (l ++ [tg]) d :=
      removeTag_removeTagsIn tg l d
    calc (tg :: rest).foldl (fun s tg => removeTag tg s) (removeTagsIn l d)
        = rest.foldl (fun s tg => removeTag tg s) (removeTagsIn (l ++ [tg]) d) := by
          simp [List.foldl_cons, h1]
      _ = removeTagsIn ((l ++ [tg]) ++ rest) d := ih (l ++ [tg]) d
      _ = removeTagsIn (l ++ tg :: rest) d := by simp

/-- No element of `d` (at any depth) has a tag in `tags`. -/
def noTagIn (tags : List PyStr) : Dom → Bool
  | .nil => true
  | .text _ sib => noTagIn tags sib
  | .elem t _ child sib =>
    decide (t ∉ tags) && noTagIn tags child && noTagIn tags sib

/-- No element of `d` (at any depth) matches the class denylist. -/
def noClassDenied (kws : List PyStr) : Dom → Bool
  | .nil => true
  | .text _ sib => noClassDenied kws sib
  | .elem _ a child sib =>
    !(classDenied kws a) && noClassDenied kws child && noClassDenied kws sib

theorem noTagIn_removeTagsIn (tags : List PyStr) (d : Dom) :
    noTagIn tags (removeTagsIn tags d) = true := by
  induction d with
  | nil => rfl
  | text s sib ih => simpa [removeTagsIn, noTagIn] using ih
  | elem t a child sib ihc ihs =>
    by_cases h : t ∈ tags
    · simpa [removeTagsIn, h] using ihs
    · simp [removeTagsIn, h, noTagIn, ihc, ihs]

theorem removeTagsIn_id_of_noTagIn (tags : List PyStr) (d : Dom)
    (h : noTagIn tags d = true) : removeTagsIn tags d = d := by
  induction d with
  | nil => rfl
  | text s sib ih => simp only [noTagIn] at h; simp [removeTagsIn, ih h]
  | elem t a child sib ihc ihs =>
    simp only [noTagIn, Bool.and_eq_true, decide_eq_true_eq] at h
    simp [removeTagsIn, h.1.1, ihc h.1.2, ihs h.2]

theorem noClassDenied_removeClassDenied (kws : List PyStr) (d : Dom) :
    noClassDenied kws (removeClassDenied kws d) = true := by
  induction d with
  | nil => rfl
  | text s sib ih => simpa [removeClassDenied, noClassDenied] using ih
  | elem t a child sib ihc ihs =>
    by_cases h : classDenied kws a
    · simpa [removeClassDenied, h] using ihs
    · simp [removeClassDenied, h, noClassDenied, ihc, ihs]

theorem removeClassDenied_id_of_no (kws : List PyStr) (d : Dom)
    (h : noClassDenied kws d = true) : removeClassDenied kws d = d := by
  induction d with
  | nil => rfl
  | text s sib ih => simp only [noClassDenied] at h; simp [removeClassDenied, ih h]
  | elem t a child sib ihc ihs =>
    simp only [noClassDenied, Bool.and_eq_true, Bool.not_eq_true'] at h
    simp [removeClassDenied, h.1.1, ihc h.1.2, ihs h.2]

/-- Class-based removal cannot create denylisted tags. -/
theorem noTagIn_removeClassDenied (tags kws : List PyStr) (d : Dom)
    (h : noTagIn tags d = true) :
    noTagIn tags (removeClassDenied kws d) = true := by
  induction d with
  | nil => rfl
  | text s sib ih => simp only [noTagIn] at h; simpa [removeClassDenied, noTagIn] using ih h
  | elem t a child sib ihc ihs =>
    simp only [noTagIn, Bool.and_eq_true, decide_eq_true_eq] at h
    by_cases hc : classDenied kws a
    · simpa [removeClassDenied, hc] using ihs h.2
    · simp [removeClassDenied, hc, noTagIn, h.1.1, ihc h.1.2, ihs h.2]

/-!
## Field Extractors
-/

/-- The `ContentProcessor.__init__` configuration. -/
structure CPConfig where
  min_text_length : Nat := 10
  max_text_length : Nat := 50000
deriving DecidableEq, Repr

/-- Models `title_selectors` from `_extract_title`, in order. -/
def title_selectors : List Selector :=
  [Selector.tagSel (pys "h1"),
   Selector.tagSel (pys "title"),
   Selector.attrSel (pys "meta") (pys "property") (pys "og:title"),
   Selector.attrSel (pys "meta") (pys "name") (pys "title")]

/-- The candidate text of an element in `_extract_title`: for a `meta`
element its `content` attribute stripped, otherwise `get_text(strip=True)`. -/
def titleCandidate (e : Elem) : PyStr :=
  if e.tag = pys "meta" then pyStrip (attrGetD e.attrs (pys "content") [])
  else getTextStrip e

/-- The selector loop of `_extract_title`, as in the source: the length
guard is evaluated on the candidate *before* `_clean_text` runs. -/
def extractTitleGo (d : Dom) : List Selector → PyStr
  | [] => []
  | sel :: rest =>
    match selectOne sel d with
    | none => extractTitleGo d rest
    | some e =>
      let title := titleCandidate e
      if title ≠ [] ∧ title.length > 3 then clean_text title
      else extractTitleGo d rest

/-- Models `ContentProcessor._extract_title`. -/
def extract_title (d : Dom) : PyStr := extractTitleGo d title_selectors

/-- Models `description_selectors` from `_extract_description`, in order. -/
def description_selectors : List Selector :=
  [Selector.attrSel (pys "meta") (pys "name") (pys "description"),
   Selector.attrSel (pys "meta") (pys "property") (pys "og:description"),
   Selector.attrSel (pys "meta") (pys "name") (pys "summary")]

def extractDescriptionGo (d : Dom) : List Selector → PyStr
  | [] => []
  | sel :: rest =>
    match selectOne sel d with
    | none => extractDescriptionGo d rest
    | some e =>
      let description := pyStrip (attrGetD e.attrs (pys "content") [])
      if description ≠ [] ∧ description.length > 10 then clean_text description
      else extractDescriptionGo d rest

/-- Models `ContentProcessor._extract_description`. -/
def extract_description (d : Dom) : PyStr := extractDescriptionGo d description_selectors

/-- Models `content_selectors` from `_extract_main_content`, in order. -/
def content_selectors : List Selector :=
  [Selector.tagSel (pys "main"),
   Selector.tagSel (pys "article"),
   Selector.anyAttrSel (pys "role") (pys "main"),
   Selector.classSel (pys "content"),
   Selector.classSel (pys "main-content"),
   Selector.classSel (pys "article-content"),
   Selector.classSel (pys "post-content"),
   Selector.classSel (pys "entry-content"),
   Selector.idSel (pys "content"),
   Selector.idSel (pys "main-content")]

/-- The block-level tags collected by `_extract_text_from_elements`. -/
def paragraph_tags : List PyStr :=
  [pys "p", pys "div", pys "h1", pys "h2", pys "h3", pys "h4", pys "h5",
   pys "h6", pys "li"]

/-- Models `ContentProcessor._extract_text_from_elements` on one element. -/
def extractTextFromElem (cfg : CPConfig) (e : Elem) : List PyStr :=
  let paragraphs := findAllP (fun p => paragraph_tags.contains p.tag) e.child
  if paragraphs ≠ [] then
    (paragraphs.map getTextStrip).filter
      (fun t => t ≠ [] ∧ t.length ≥ cfg.min_text_length)
  else
    let t := getTextStrip e
    if t ≠ [] then [t] else []

/-- Models `ContentProcessor._extract_text_from_elements` on an element list. -/
def extract_text_from_elements (cfg : CPConfig) (es : List Elem) : PyStr :=
  pyJoin (pys "\n") ((es.map (extractTextFromElem cfg)).flatten)

/-- The selector loop of `_extract_main_content`: keep the last extraction
from a selector that matched elements, stopping once one exceeds 100. -/
def selectMainGo (cfg : CPConfig) (d : Dom) (acc : PyStr) : List Selector → PyStr
  | [] => acc
  | sel :: rest =>
    match selectAll sel d with
    | [] => selectMainGo cfg d acc rest
    | es =>
      let mc := extract_text_from_elements cfg es
      if mc.length > 100 then mc else selectMainGo cfg d mc rest

/-- The selection phase of `_extract_main_content` (selector loop, then the
`<body>` fallback when the result stays under 100 characters). -/
def select_main_content (cfg : CPConfig) (d : Dom) : PyStr :=
  let mc := selectMainGo cfg d [] content_selectors
  if mc.length < 100 then
    match findFirstP (fun e => e.tag = pys "body") d with
    | some body => extract_text_from_elements cfg [body]
    | none => mc
  else mc

/-- The final length cap of `_extract_main_content`: truncate to
`max_text_length` and append `"..."` when exceeded. -/
def truncate_content (cfg : CPConfig) (mc : PyStr) : PyStr :=
  if mc.length > cfg.max_text_length then mc.take cfg.max_text_length ++ pys "..."
  else mc

/-- Models `ContentProcessor._extract_main_content`: select, clean, truncate. -/
def extract_main_content (cfg : CPConfig) (d : Dom) : PyStr :=
  truncate_content cfg (clean_text (select_main_content cfg d))

/-- Models `keywords_selectors` from `_extract_keywords`. -/
def keywords_selectors : List Selector :=
  [Selector.attrSel (pys "meta") (pys "name") (pys "keywords"),
   Selector.attrSel (pys "meta") (pys "property") (pys "article:tag")]

/-- Models `ContentProcessor._extract_keywords`: comma-split `content` attributes,
each keyword stripped, first ten joined with `", "`. -/
def extract_keywords (d : Dom) : PyStr :=
  let kws := (keywords_selectors.map (fun sel =>
    ((selectAll sel d).map (fun e =>
      let content := pyStrip (attrGetD e.attrs (pys "content") [])
      if content ≠ [] then (pySplitChar (fun c => c = ',') content).map pyStrip
      else [])).flatten)).flatten
  pyJoin (pys ", ") (kws.take 10)

/-- One extracted link (`{'url': ..., 'text': ...}`). -/
structure LinkEntry where
  url : PyStr
  text : PyStr
deriving DecidableEq, Repr

/-- One extracted image (`{'url': ..., 'alt': ...}`). -/
structure ImageEntry where
  url : PyStr
  alt : PyStr
deriving DecidableEq, Repr

/-- Models `href.startswith(('http://', 'https://', '#'))`. -/
def linkIsAbsolute (href : PyStr) : Bool :=
  startsWithSeq (pys "http://") href || startsWithSeq (pys "https://") href ||
  startsWithSeq (pys "#") href

/-- Models `src.startswith(('http://', 'https://', 'data:'))`. -/
def imageIsAbsolute (src : PyStr) : Bool :=
  startsWithSeq (pys "http://") src || startsWithSeq (pys "https://") src ||
  startsWithSeq (pys "data:") src

/-- Models `ContentProcessor._extract_links`.  `uj` models `urllib.parse.urljoin`
(a stdlib function outside this repository, so kept abstract). -/
def extract_links (uj : PyStr → PyStr → PyStr) (d : Dom)
    (base_url : Option PyStr) : List LinkEntry :=
  (((findAllP (fun e => e.tag = pys "a" && attrHas e.attrs (pys "href")) d).filterMap
    (fun e =>
      let href := pyStrip (attrGetD e.attrs (pys "href") [])
      let text := getTextStrip e
      if href ≠ [] ∧ text ≠ [] then
        let href := match base_url with
          | some b => if !(linkIsAbsolute href) then uj b href else href
          | none => href
        some ⟨href, text.take 100⟩
      else none)).take 50)

/-- Models `ContentProcessor._extract_images`. -/
def extract_images (uj : PyStr → PyStr → PyStr) (d : Dom)
    (base_url : Option PyStr) : List ImageEntry :=
  (((findAllP (fun e => e.tag = pys "img" && attrHas e.attrs (pys "src")) d).filterMap
    (fun e =>
      let src := pyStrip (attrGetD e.attrs (pys "src") [])
      let alt := pyStrip (attrGetD e.attrs (pys "alt") [])
      if src ≠ [] then
        let src := match base_url with
          | some b => if !(imageIsAbsolute src) then uj b src else src
          | none => src
        some ⟨src, alt.take 100⟩
      else none)).take 20)

/-!
## Summary Generator (`ContentProcessor._generate_summary`)
-/

/-- The sentence-terminator class of `re.split(r'[.!?。！？]', content)`. -/
def isSentenceTerm (c : Char) : Bool :=
  c = '.' || c = '!' || c = '?' || c = '。' || c = '！' || c = '？'

/-- The accumulation loop of `_generate_summary`: skip sentences that strip
to ten characters or fewer; stop (returning the accumulator) as soon as a
kept sentence would push `len(summary + sentence)` past `maxLen`; otherwise
append the sentence plus a full-width period. -/
def summaryLoop (maxLen : Nat) : List PyStr → PyStr → PyStr
  | [], acc => acc
  | s :: rest, acc =>
    let t := pyStrip s
    if t ≠ [] ∧ t.length > 10 then
      if acc.length + t.length > maxLen then acc
      else summaryLoop maxLen rest (acc ++ t ++ ['。'])
    else summaryLoop maxLen rest acc

/-- Models `ContentProcessor._generate_summary` (default `max_length = 200`). -/
def generate_summary (content : PyStr) (maxLen : Nat := 200) : PyStr :=
  if content = [] ∨ content.length < 50 then content
  else pyStrip (summaryLoop maxLen (pySplitChar isSentenceTerm content) [])

/-!
## Extraction Orchestrator (`ContentProcessor.process_html`)
-/

/-- The structured record returned by `process_html`. -/
structure ExtractResult where
  title : PyStr
  description : PyStr
  main_content : PyStr
  keywords : PyStr
  links : List LinkEntry
  images : List ImageEntry
  summary : PyStr
deriving DecidableEq, Repr

/-- The `except`-branch record of `process_html`: every field empty. -/
def emptyExtractResult : ExtractResult :=
  { title := [], description := [], main_content := [], keywords := [],
    links := [], images := [], summary := [] }

/-- The `try`-branch of `process_html`: filter the tree, run every
extractor, then summarise the extracted main content. -/
def process_html_ok (cfg : CPConfig) (uj : PyStr → PyStr → PyStr)
    (soup : Dom) (base_url : Option PyStr) : ExtractResult :=
  let soup := remove_unwanted_elements soup
  let main_content := extract_main_content cfg soup
  { title := extract_title soup,
    description := extract_description soup,
    main_content := main_content,
    keywords := extract_keywords soup,
    links := extract_links uj soup base_url,
    images := extract_images uj soup base_url,
    summary := generate_summary main_content }

/-- A failure inside the `try` block of `process_html` (e.g. the
`BeautifulSoup` parse itself); carried as an error message. -/
abbrev ParseFailure := PyStr

/-- Models `ContentProcessor.process_html`: the whole body runs under
`try/except Exception`; any failure produces the all-empty record. -/
def process_html (cfg : CPConfig) (uj : PyStr → PyStr → PyStr)
    (parsed : Except ParseFailure Dom) (base_url : Option PyStr) : ExtractResult :=
  match parsed with
  | .error _ => emptyExtractResult
  | .ok soup => process_html_ok cfg uj soup base_url

/-!
## Claims C1, C2, C8 (extraction side)
-/

/-- C8: The Element Filter is idempotent: applying
`_remove_unwanted_elements` (tag-denylist removal followed by
class-keyword removal) twice yields the same tree as applying it once. -/
theorem claim_C8_filter_idempotent (d : Dom) :
    remove_unwanted_elements (remove_unwanted_elements d)
      = remove_unwanted_elements d := by
  have hfold : ∀ x : Dom,
      remove_tags_list.foldl (fun s tg => removeTag tg s) x
        = removeTagsIn remove_tags_list x := by
    intro x
    have h := foldl_removeTag_eq remove_tags_list [] x
    rwa [removeTagsIn_nil_tags, List.nil_append] at h
  simp only [remove_unwanted_elements, hfold]
  set u := removeTagsIn remove_tags_list d with hu
  set v := removeClassDenied remove_classes_list u with hv
  have h1 : noTagIn remove_tags_list u = true := noTagIn_removeTagsIn _ d
  have h2 : noTagIn remove_tags_list v = true :=
    noTagIn_removeClassDenied _ _ u h1
  have h3 : removeTagsIn remove_tags_list v = v :=
    removeTagsIn_id_of_noTagIn _ v h2
  have h4 : noClassDenied remove_classes_list v = true :=
    noClassDenied_removeClassDenied _ u
  have h5 : removeClassDenied remove_classes_list v = v :=
    removeClassDenied_id_of_no _ v h4
  rw [h3, h5]

/-- C1: `process_html` is a total function of the parse outcome: when
anything in its body fails (modelled by the `Except.error` case) it
returns the record with every field empty, and otherwise it returns the
assembled record — the error never propagates. -/
theorem claim_C1_process_html_fail_open (cfg : CPConfig)
    (uj : PyStr → PyStr → PyStr) (parsed : Except ParseFailure Dom)
    (base_url : Option PyStr) :
    process_html cfg uj parsed base_url
        = { title := [], description := [], main_content := [], keywords := [],
            links := [], images := [], summary := [] }
      ∨ ∃ soup, parsed = Except.ok soup ∧
          process_html cfg uj parsed base_url = process_html_ok cfg uj soup base_url := by
  cases parsed with
  | error e => exact Or.inl rfl
  | ok soup => exact Or.inr ⟨soup, rfl, rfl⟩

/-- C2: The extracted main content never exceeds
`max_text_length + len("...")`; and when the cleaned selected content has
exactly 50 010 characters under `max_text_length = 50000`, the result is
its first 50 000 characters followed by `"..."`. -/
theorem claim_C2_main_content_bound :
    (∀ (cfg : CPConfig) (d : Dom),
        (extract_main_content cfg d).length
          ≤ cfg.max_text_length + (pys "...").length)
    ∧ (∀ s : PyStr, s.length = 50010 →
        truncate_content ⟨10, 50000⟩ s = s.take 50000 ++ pys "...") := by
  constructor
  · intro cfg d
    unfold extract_main_content truncate_content
    set m := clean_text (select_main_content cfg d)
    by_cases h : m.length > cfg.max_text_length
    · simp only [h, if_true, List.length_append, List.length_take]
      omega
    · simp only [h, if_false]
      omega
  · intro s hs
    unfold truncate_content
    simp only [hs]
    norm_num

/-- Witness for C2's conditional part, at a concrete 50 010-character input. -/
theorem claim_C2_witness :
    (List.replicate 50010 'a').length = 50010
    ∧ truncate_content ⟨10, 50000⟩ (List.replicate 50010 'a')
        = (List.replicate 50010 'a').take 50000 ++ pys "..." :=
  ⟨List.length_replicate 50010 'a',
   claim_C2_main_content_bound.2 (List.replicate 50010 'a')
     (List.length_replicate 50010 'a')⟩

/-!
## Claim C5: title extraction
-/

/-- Title extraction as the claim words it ("the first candidate whose
*cleaned* text exceeds 3 characters"): the length guard runs on the
output of `_clean_text`.  Spec-following definition, for comparison with
`extract_title`, which guards on the raw candidate. -/
def extractTitleSpecGo (d : Dom) : List Selector → PyStr
  | [] => []
  | sel :: rest =>
    match selectOne sel d with
    | none => extractTitleSpecGo d rest
    | some e =>
      let cleaned := clean_text (titleCandidate e)
      if cleaned.length > 3 then cleaned
      else extractTitleSpecGo d rest

def extract_title_spec (d : Dom) : PyStr := extractTitleSpecGo d title_selectors

/-- Title extraction as amended: the first selector (in the order `h1`,
`title`, `og:title` meta, `title` meta) whose candidate text is nonempty
and longer than 3 characters *before* cleaning, returned cleaned; the
empty string when no selector qualifies. -/
def extract_title_amended (d : Dom) : PyStr :=
  match title_selectors.findSome? (fun sel =>
    (selectOne sel d).bind (fun e =>
      let t := titleCandidate e
      if t ≠ [] ∧ t.length > 3 then some (clean_text t) else none)) with
  | some r => r
  | none => []

theorem extractTitleGo_findSome (d : Dom) (sels : List Selector) :
    extractTitleGo d sels
      = (sels.findSome? (fun sel =>
          (selectOne sel d).bind (fun e =>
            let t := titleCandidate e
            if t ≠ [] ∧ t.length > 3 then some (clean_text t) else none))).getD [] := by
  induction sels with
  | nil => rfl
  | cons sel rest ih =>
    rw [extractTitleGo, List.findSome?_cons]
    cases h : selectOne sel d with
    | none => simpa [h] using ih
    | some e =>
      by_cases hg : titleCandidate e ≠ [] ∧ (titleCandidate e).length > 3
      · simp [h, hg, Option.bind]
      · simpa [h, hg, Option.bind] using ih

/-- The h1-shadows-title counterexample document:
`<h1>a\n\n\nb</h1><title>Proper Title</title>`.  The `h1` candidate has raw
length 5 (accepted by the code) but cleans to `"a b"` of length 3
(rejected by the claim's wording). -/
def c5CounterDom : Dom :=
  Dom.elem (pys "h1") [] (Dom.text (pys "a\n\n\nb") Dom.nil)
    (Dom.elem (pys "title") [] (Dom.text (pys "Proper Title") Dom.nil) Dom.nil)

/-- The title-priority scenario document:
`<h1>Visible</h1><title>Hidden</title>`. -/
def c5ScenarioDom : Dom :=
  Dom.elem (pys "h1") [] (Dom.text (pys "Visible") Dom.nil)
    (Dom.elem (pys "title") [] (Dom.text (pys "Hidden") Dom.nil) Dom.nil)

/-- C5 counterexample: On `c5CounterDom` the code returns the cleaned
`h1` text `"a b"` (3 characters), while the claim's rule —
accept the first candidate whose *cleaned* text exceeds 3 characters —
selects `"Proper Title"` instead; the two disagree. -/
theorem claim_C5_counterexample :
    extract_title c5CounterDom = pys "a b"
    ∧ extract_title_spec c5CounterDom = pys "Proper Title"
    ∧ extract_title c5CounterDom ≠ extract_title_spec c5CounterDom := by decide

/-- C5 (amended): The title extractor tries, in order, the first `h1`,
`title`, `og:title` meta and `title` meta; it returns, cleaned, the first
candidate whose text is nonempty and exceeds 3 characters *before*
cleaning, else the empty string; and on a document with both
`<h1>Visible</h1>` and `<title>Hidden</title>` it returns `"Visible"`. -/
theorem claim_C5_title_priority :
    (∀ d : Dom, extract_title d = extract_title_amended d)
    ∧ extract_title c5ScenarioDom = pys "Visible" := by
  constructor
  · intro d
    rw [extract_title, extract_title_amended, extractTitleGo_findSome]
    cases h : title_selectors.findSome? _ with
    | none => simp [h]
    | some r => simp [h]
  · decide

/-!
## Claims C6, C7: summary generation
-/

/-- The sentences kept by the summary loop, per the claim's wording: split
on the six terminators, trim, keep those longer than 10 characters. -/
def qualifyingSentences (content : PyStr) : List PyStr :=
  ((pySplitChar isSentenceTerm content).map pyStrip).filter
    (fun t => t ≠ [] ∧ t.length > 10)

/-- Greedy accumulation as the claim words it: take sentences in order,
each with a full-width period appended, stopping as soon as adding the
next sentence would push the accumulated length past `maxLen` (`used`
counts the characters already accumulated, periods included). -/
def greedyTakeGo (maxLen used : Nat) : List PyStr → List PyStr
  | [] => []
  | t :: rest =>
    if used + t.length > maxLen then []
    else (t ++ ['。']) :: greedyTakeGo maxLen (used + t.length + 1) rest

/-- Models `_generate_summary` as the claim describes it: inputs that are empty
or shorter than 50 characters come back unchanged; otherwise the greedy
prefix of qualifying sentences, concatenated and trimmed. -/
def generate_summary_spec (content : PyStr) (maxLen : Nat := 200) : PyStr :=
  if content = [] ∨ content.length < 50 then content
  else pyStrip ((greedyTakeGo maxLen 0 (qualifyingSentences content)).flatten)

/-- The interleaved filter-and-accumulate loop of the source equals
filtering first and then greedily taking whole sentences. -/
theorem summaryLoop_eq_greedy (m : Nat) : ∀ (ss : List PyStr) (acc : PyStr),
    summaryLoop m ss acc
      = acc ++ (greedyTakeGo m acc.length
          ((ss.map pyStrip).filter (fun t => t ≠ [] ∧ t.length > 10))).flatten := by
  intro ss
  induction ss with
  | nil => intro acc; simp [summaryLoop, greedyTakeGo]
  | cons s rest ih =>
    intro acc
    by_cases hk : pyStrip s ≠ [] ∧ (pyStrip s).length > 10
    · by_cases hov : acc.length + (pyStrip s).length > m
      · simp [summaryLoop, hk, hov, greedyTakeGo]
      · have hstep : summaryLoop m (s :: rest) acc
            = summaryLoop m rest (acc ++ pyStrip s ++ ['。']) := by
          simp [summaryLoop, hk, hov]
        have hlen : (acc ++ pyStrip s ++ ['。']).length
            = acc.length + (pyStrip s).length + 1 := by
          simp [List.length_append]; omega
        rw [hstep, ih, hlen]
        simp [List.filter_cons, hk, greedyTakeGo, hov, List.append_assoc]
    · simp only [summaryLoop, hk, if_false, ih acc, List.map_cons, List.filter_cons]
      simp [hk]

/-- C6: The summary generator behaves exactly as the claim describes:
it equals the spec-worded pipeline (unchanged short inputs; split on
`.!?。！？`; greedy accumulation of trimmed sentences longer than 10
characters, a full-width period after each, stopping when the next
sentence would exceed the budget; result trimmed). -/
theorem claim_C6_summary_algorithm (content : PyStr) (maxLen : Nat) :
    generate_summary content maxLen = generate_summary_spec content maxLen := by
  unfold generate_summary generate_summary_spec
  by_cases h : content = [] ∨ content.length < 50
  · simp [h]
  · simp only [h, if_false]
    rw [summaryLoop_eq_greedy]
    rfl

/-- The loop only ever extends its accumulator on the right. -/
theorem summaryLoop_extends (m : Nat) : ∀ (ss : List PyStr) (acc : PyStr),
    ∃ ext, summaryLoop m ss acc = acc ++ ext := by
  intro ss
  induction ss with
  | nil => intro acc; exact ⟨[], by simp [summaryLoop]⟩
  | cons s rest ih =>
    intro acc
    by_cases hk : pyStrip s ≠ [] ∧ (pyStrip s).length > 10
    · by_cases hov : acc.length + (pyStrip s).length > m
      · exact ⟨[], by simp [summaryLoop, hk, hov]⟩
      · obtain ⟨ext, hext⟩ := ih (acc ++ pyStrip s ++ ['。'])
        refine ⟨pyStrip s ++ ['。'] ++ ext, ?_⟩
        have hstep : summaryLoop m (s :: rest) acc
            = summaryLoop m rest (acc ++ pyStrip s ++ ['。']) := by
          simp [summaryLoop, hk, hov]
        rw [hstep, hext]
        simp [List.append_assoc]
    · obtain ⟨ext, hext⟩ := ih acc
      exact ⟨ext, by simp [summaryLoop, hk, hext]⟩

/-- Raising the budget never shortens the loop's output. -/
theorem summaryLoop_mono (m₁ m₂ : Nat) (h : m₁ ≤ m₂) :
    ∀ (ss : List PyStr) (acc : PyStr),
      (summaryLoop m₁ ss acc).length ≤ (summaryLoop m₂ ss acc).length := by
  intro ss
  induction ss with
  | nil => intro acc; simp [summaryLoop]
  | cons s rest ih =>
    intro acc
    by_cases hk : pyStrip s ≠ [] ∧ (pyStrip s).length > 10
    · by_cases hov2 : acc.length + (pyStrip s).length > m₂
      · have hov1 : acc.length + (pyStrip s).length > m₁ := by omega
        simp [summaryLoop, hk, hov1, hov2]
      · by_cases hov1 : acc.length + (pyStrip s).length > m₁
        · obtain ⟨ext, hext⟩ := summaryLoop_extends m₂ rest (acc ++ pyStrip s ++ ['。'])
          simp only [summaryLoop, hk, if_true, hov1, if_false, hov2, hext]
          simp [hk.1, List.length_append]
        · simpa [summaryLoop, hk, hov1, hov2] using ih (acc ++ pyStrip s ++ ['。'])
    · simpa [summaryLoop, hk] using ih acc

/-- A string shaped like a nonempty loop accumulator: non-whitespace
first character, and ending in the appended full-width period. -/
def goodSummaryStr (t : PyStr) : Prop :=
  t = [] ∨ ((∃ c cs, t = c :: cs ∧ isPySpace c = false) ∧ ∃ ds, t = ds ++ ['。'])

theorem pyLstrip_head : ∀ s : PyStr,
    pyLstrip s = [] ∨ ∃ c cs, pyLstrip s = c :: cs ∧ isPySpace c = false := by
  intro s
  induction s with
  | nil => exact Or.inl rfl
  | cons c cs ih =>
    by_cases hc : isPySpace c
    · simpa [pyLstrip, List.dropWhile_cons, hc] using ih
    · exact Or.inr ⟨c, cs, by simp [pyLstrip, List.dropWhile_cons, hc], by simpa using hc⟩

/-- Models `pyRstrip` only removes characters from the right. -/
theorem pyRstrip_chopped (u : PyStr) : ∃ rest, u = pyRstrip u ++ rest := by
  obtain ⟨pre, hpre⟩ := (List.dropWhile_suffix isPySpace (l := u.reverse))
  refine ⟨pre.reverse, ?_⟩
  have : u.reverse = pre ++ u.reverse.dropWhile isPySpace := hpre.symm
  calc u = u.reverse.reverse := by simp
    _ = (pre ++ u.reverse.dropWhile isPySpace).reverse := by rw [← this]
    _ = pyRstrip u ++ pre.reverse := by simp [pyRstrip]

/-- A nonempty stripped string starts with a non-whitespace character. -/
theorem pyStrip_head (s : PyStr) (h : pyStrip s ≠ []) :
    ∃ c cs, pyStrip s = c :: cs ∧ isPySpace c = false := by
  obtain ⟨rest, hrest⟩ := pyRstrip_chopped (pyLstrip s)
  rcases pyLstrip_head s with h0 | ⟨c, cs, hcs, hc⟩
  · exfalso; apply h; simp [pyStrip, h0, pyRstrip]
  · cases hps : pyStrip s with
    | nil => exact absurd hps h
    | cons c' cs' =>
      refine ⟨c', cs', rfl, ?_⟩
      have : pyLstrip s = c' :: (cs' ++ rest) := by
        rw [hrest]; rw [pyStrip] at hps; rw [hps]; simp
      rw [this] at hcs
      have : c = c' := by injection hcs with h1 _; exact h1.symm
      rwa [← this]

/-- Stripping is the identity on accumulator-shaped strings. -/
theorem pyStrip_id_of_good (t : PyStr) (hg : goodSummaryStr t) : pyStrip t = t := by
  rcases hg with rfl | ⟨⟨c, cs, hcons, hc⟩, ⟨ds, hlast⟩⟩
  · rfl
  · have hl : pyLstrip t = t := by
      rw [hcons]; simp [pyLstrip, List.dropWhile_cons, hc]
    have hperiod : isPySpace '。' = false := by decide
    have hr : pyRstrip t = t := by
      rw [hlast, pyRstrip]
      simp [List.dropWhile_cons, hperiod]
    rw [pyStrip, hl, hr]

/-- The loop preserves accumulator shape. -/
theorem summaryLoop_good (m : Nat) : ∀ (ss : List PyStr) (acc : PyStr),
    goodSummaryStr acc → goodSummaryStr (summaryLoop m ss acc) := by
  intro ss
  induction ss with
  | nil => intro acc hg; simpa [summaryLoop] using hg
  | cons s rest ih =>
    intro acc hg
    by_cases hk : pyStrip s ≠ [] ∧ (pyStrip s).length > 10
    · by_cases hov : acc.length + (pyStrip s).length > m
      · simpa [summaryLoop, hk, hov] using hg
      · have hstep : summaryLoop m (s :: rest) acc
            = summaryLoop m rest (acc ++ pyStrip s ++ ['。']) := by
          simp [summaryLoop, hk, hov]
        rw [hstep]
        apply ih
        obtain ⟨c, cs, hcons, hc⟩ := pyStrip_head s hk.1
        refine Or.inr ⟨?_, acc ++ pyStrip s, by simp⟩
        rcases hg with rfl | ⟨⟨c', cs', hcons', hc'⟩, _⟩
        · exact ⟨c, cs ++ ['。'], by simp [hcons], hc⟩
        · exact ⟨c', cs' ++ pyStrip s ++ ['。'], by simp [hcons'], hc'⟩
    · simpa [summaryLoop, hk] using ih acc hg

/-- C7: Summary monotonicity: for a fixed input, a larger `max_length`
budget never yields a shorter summary. -/
theorem claim_C7_summary_monotone (content : PyStr) (m₁ m₂ : Nat) (h : m₁ ≤ m₂) :
    (generate_summary content m₁).length ≤ (generate_summary content m₂).length := by
  unfold generate_summary
  by_cases hshort : content = [] ∨ content.length < 50
  · simp [hshort]
  · simp only [hshort, if_false]
    have hgood : goodSummaryStr ([] : PyStr) := Or.inl rfl
    rw [pyStrip_id_of_good _ (summaryLoop_good m₁ _ [] hgood),
        pyStrip_id_of_good _ (summaryLoop_good m₂ _ [] hgood)]
    exact summaryLoop_mono m₁ m₂ h _ []

/-- Witness for C7 at a concrete document and budgets 60 ≤ 120. -/
theorem claim_C7_witness :
    60 ≤ 120
    ∧ (generate_summary (pys "The quick brown fox jumps over a lazy dog. A second sentence with more words follows here. And then a third sentence arrives at the end.") 60).length
        ≤ (generate_summary (pys "The quick brown fox jumps over a lazy dog. A second sentence with more words follows here. And then a third sentence arrives at the end.") 120).length :=
  ⟨by omega, claim_C7_summary_monotone _ 60 120 (by omega)⟩

/-!
## Output formatter (`src/formatter/output_formatter.py`)
-/

/-- Decimal digits of `n` (most significant first), prepended to `acc`;
structural on a fuel bound so the kernel can evaluate it.  Models Python
`str(n)` for the non-negative integers the formatter prints. -/
def decDigitsAux : Nat → Nat → PyStr → PyStr
  | 0, _, acc => acc
  | fuel + 1, n, acc =>
    if n < 10 then Char.ofNat (48 + n % 10) :: acc
    else decDigitsAux fuel (n / 10) (Char.ofNat (48 + n % 10) :: acc)

/-- Python `str(n)` for `n : Nat` (`n + 1` fuel always suffices). -/
def decRepr (n : Nat) : PyStr := decDigitsAux (n + 1) n []

example : decRepr 0 = pys "0" := by decide
example : decRepr 50010 = pys "50010" := by decide

/-- Models `OutputFormat` from the source. -/
inductive OutputFormat where
  | markdown : OutputFormat
  | html : OutputFormat
  | text : OutputFormat
  | json : OutputFormat
deriving DecidableEq, Repr

/-- The `format_type` argument as Python receives it: either one of the
four enum members, or (Python being dynamically typed) some other value,
which the source handles in its `else` warning branch. -/
inductive FormatArg where
  | known (f : OutputFormat) : FormatArg
  | unknown (tagStr : PyStr) : FormatArg
deriving DecidableEq, Repr

/-- The metadata dictionary (keys written by `add_metadata` plus the ones
the renderers read). -/
structure Metadata where
  source_url : Option PyStr := none
  timestamp : Option PyStr := none
  template : Option PyStr := none
  word_count : Option Nat := none
  char_count : Option Nat := none
  line_count : Option Nat := none
deriving DecidableEq, Repr

/-- Python truthiness of `metadata.get(key)` for a string value: present
and nonempty. -/
def truthyStr : Option PyStr → Bool
  | none => false
  | some s => s ≠ []

/-- Python truthiness of `metadata.get(key)` for an integer value:
present and nonzero. -/
def truthyNat : Option Nat → Bool
  | none => false
  | some n => n ≠ 0

/-- Models `any(key in metadata for key in ['word_count', 'char_count'])`:
key *presence*, not truthiness. -/
def hasStatsKey (m : Metadata) : Bool :=
  m.word_count.isSome || m.char_count.isSome

/-- Python `len(t.split())`. -/
def pyWordCount (t : PyStr) : Nat := (pySplitWs t).length

/-- Python `len(t.split('\n'))`. -/
def pyLineCount (t : PyStr) : Nat := (pySplitChar (fun c => c = '\n') t).length

/-- Models `re.sub(r'\n{3,}', '\n\n', _)` flush step: a run of `k` pending
newlines is emitted as two when `k ≥ 3`, unchanged otherwise. -/
def nlFlush (k : Nat) : PyStr :=
  if k ≥ 3 then ['\n', '\n'] else List.replicate k '\n'

def collapseBlankGo : PyStr → Nat → PyStr
  | [], k => nlFlush k
  | c :: cs, k =>
    if c = '\n' then collapseBlankGo cs (k + 1)
    else nlFlush k ++ c :: collapseBlankGo cs 0

/-- Models `re.sub(r'\n{3,}', '\n\n', t)`. -/
def collapseBlankRuns (t : PyStr) : PyStr := collapseBlankGo t 0

example : collapseBlankRuns (pys "a\n\n\n\nb\n\nc") = pys "a\n\nb\n\nc" := by decide

/-- The emoji class of `re.sub(r'([^\s])([🎉🔥💡📝🎯✨👍💪🚀🌟⭐])', r'\1 \2', _)`. -/
def emoji_set : List Char := ['🎉', '🔥', '💡', '📝', '🎯', '✨', '👍', '💪', '🚀', '🌟', '⭐']

/-- The emoji-spacing substitution: a space is inserted between a
non-whitespace character and a following listed emoji; scanning resumes
after the emoji (so of two adjacent emoji only the first is separated). -/
def emojiSpaceGo : PyStr → PyStr
  | [] => []
  | [c] => [c]
  | c₁ :: c₂ :: rest =>
    if !(isPySpace c₁) && emoji_set.contains c₂ then
      c₁ :: ' ' :: c₂ :: emojiSpaceGo rest
    else c₁ :: emojiSpaceGo (c₂ :: rest)

example : emojiSpaceGo (pys "a🎉🔥b") = pys "a 🎉🔥b" := by decide

/-- Models `OutputFormatter._enhance_markdown_formatting`.  The source's first
substitution `re.sub(r'^([^#\n].*?)$', r'\1', ...)` replaces each matched
line with itself and is the identity; then blank-run collapsing, emoji
spacing, and a final `strip()`. -/
def enhance_markdown_formatting (content : PyStr) : PyStr :=
  pyStrip (emojiSpaceGo (collapseBlankRuns content))

/-- Models `OutputFormatter._format_as_markdown`. -/
def format_as_markdown (content : PyStr) (md : Option Metadata) : PyStr :=
  let headerLines : List PyStr := match md with
    | none => []
    | some m =>
      [pys "---"]
      ++ (if truthyStr m.source_url then [pys "**来源**: " ++ m.source_url.getD []] else [])
      ++ (if truthyStr m.timestamp then [pys "**生成时间**: " ++ m.timestamp.getD []] else [])
      ++ (if truthyStr m.template then [pys "**风格模板**: " ++ m.template.getD []] else [])
      ++ [pys "---\n"]
  let statsLines : List PyStr := match md with
    | none => []
    | some m =>
      if hasStatsKey m then
        [pys "\n---", pys "**统计信息**"]
        ++ (if truthyNat m.word_count then [pys "- 字数: " ++ decRepr (m.word_count.getD 0)] else [])
        ++ (if truthyNat m.char_count then [pys "- 字符数: " ++ decRepr (m.char_count.getD 0)] else [])
      else []
  pyJoin (pys "\n") (headerLines ++ [enhance_markdown_formatting content] ++ statsLines)

/-- Models `html.escape(c)` (with the default `quote=True`), per character. -/
def html_escape_char (c : Char) : PyStr :=
  if c = '&' then pys "&amp;"
  else if c = '<' then pys "&lt;"
  else if c = '>' then pys "&gt;"
  else if c = '"' then pys "&quot;"
  else if c = '\'' then pys "&#x27;"
  else [c]

/-- Models `html.escape(t)`: the sequential replacements (`&` first) equal a
single per-character map, since no replacement output re-triggers one. -/
def html_escape (t : PyStr) : PyStr := (t.map html_escape_char).flatten

example : html_escape (pys "<b>&'x\"") = pys "&lt;b&gt;&amp;&#x27;x&quot;" := by decide

/-- One line of the heading substitutions
`re.sub(r'^#+ (.*?)$', r'<hN>\1</hN>', ..., flags=re.MULTILINE)` for
N = 1, 2, 3: the three patterns are mutually exclusive per line. -/
def convertHeadingLine (line : PyStr) : PyStr :=
  if startsWithSeq (pys "# ") line then pys "<h1>" ++ line.drop 2 ++ pys "</h1>"
  else if startsWithSeq (pys "## ") line then pys "<h2>" ++ line.drop 3 ++ pys "</h2>"
  else if startsWithSeq (pys "### ") line then pys "<h3>" ++ line.drop 4 ++ pys "</h3>"
  else line

def convertHeadings (t : PyStr) : PyStr :=
  pyJoin (pys "\n") ((pySplitChar (fun c => c = '\n') t).map convertHeadingLine)

/-- Offset of the earliest adjacent `**` in the current line (the
non-greedy `(.*?)` of `\*\*(.*?)\*\*` cannot cross a newline). -/
def findStarPair : PyStr → Option Nat
  | '*' :: '*' :: _ => some 0
  | c :: rest => if c = '\n' then none else (findStarPair rest).map (· + 1)
  | [] => none

/-- Models `re.sub(r'\*\*(.*?)\*\*', wrapL + r'\1' + wrapR, _)`: on a missing
closing pair the scan advances one character, as `re.sub` does.
Structural on a fuel bound (every step shortens the input, so fuel equal
to the input length always suffices). -/
def starPairSubGo (wrapL wrapR : PyStr) : Nat → PyStr → PyStr
  | 0, t => t
  | fuel + 1, t =>
    match t with
    | '*' :: '*' :: rest =>
      match findStarPair rest with
      | some i =>
        wrapL ++ rest.take i ++ wrapR ++ starPairSubGo wrapL wrapR fuel (rest.drop (i + 2))
      | none => '*' :: starPairSubGo wrapL wrapR fuel ('*' :: rest)
    | c :: rest => c :: starPairSubGo wrapL wrapR fuel rest
    | [] => []

def starPairSub (wrapL wrapR : PyStr) (t : PyStr) : PyStr :=
  starPairSubGo wrapL wrapR t.length t

/-- Offset of the earliest `*` in the current line. -/
def findStarSingle : PyStr → Option Nat
  | '*' :: _ => some 0
  | c :: rest => if c = '\n' then none else (findStarSingle rest).map (· + 1)
  | [] => none

/-- Models `re.sub(r'\*(.*?)\*', wrapL + r'\1' + wrapR, _)`, fuel-structural
like `starPairSubGo`. -/
def starSingleSubGo (wrapL wrapR : PyStr) : Nat → PyStr → PyStr
  | 0, t => t
  | fuel + 1, t =>
    match t with
    | '*' :: rest =>
      match findStarSingle rest with
      | some i =>
        wrapL ++ rest.take i ++ wrapR ++ starSingleSubGo wrapL wrapR fuel (rest.drop (i + 1))
      | none => '*' :: starSingleSubGo wrapL wrapR fuel rest
    | c :: rest => c :: starSingleSubGo wrapL wrapR fuel rest
    | [] => []

def starSingleSub (wrapL wrapR : PyStr) (t : PyStr) : PyStr :=
  starSingleSubGo wrapL wrapR t.length t

example : starPairSub (pys "<strong>") (pys "</strong>") (pys "a**b**c")
    = pys "a<strong>b</strong>c" := by decide
example : starSingleSub (pys "<em>") (pys "</em>") (pys "a*b*")
    = pys "a<em>b</em>" := by decide
example : starPairSub [] [] (pys "***") = pys "***" := by decide

/-- Models `content.split('\n\n')` (left-to-right, non-overlapping). -/
def splitParasGo (cur : PyStr) : PyStr → List PyStr
  | '\n' :: '\n' :: rest => cur.reverse :: splitParasGo [] rest
  | c :: rest => splitParasGo (c :: cur) rest
  | [] => [cur.reverse]

example : splitParasGo [] (pys "a\n\n\nb") = [pys "a", pys "\nb"] := by decide

/-- Models `re.match(r'^<[hH][1-6]>', para)`. -/
def startsHeadingTag (p : PyStr) : Bool :=
  match p with
  | '<' :: h :: d :: '>' :: _ => (h = 'h' || h = 'H') && ('1' ≤ d && d ≤ '6')
  | _ => false

/-- Models `para.replace('\n', '<br>')`. -/
def replaceNlBr (t : PyStr) : PyStr :=
  (t.map (fun c => if c = '\n' then pys "<br>" else [c])).flatten

/-- Models `OutputFormatter._convert_markdown_to_html`: escape the whole text,
convert heading lines, bold, italic, then wrap blank-line-separated
paragraphs (already-heading paragraphs pass through unwrapped). -/
def convert_markdown_to_html (content : PyStr) : PyStr :=
  let c₁ := convertHeadings (html_escape content)
  let c₂ := starSingleSub (pys "<em>") (pys "</em>")
              (starPairSub (pys "<strong>") (pys "</strong>") c₁)
  let paras := ((splitParasGo [] c₂).map pyStrip).filter (fun p => p ≠ [])
  pyJoin (pys "\n") (paras.map (fun p =>
    if startsHeadingTag p then p else pys "<p>" ++ replaceNlBr p ++ pys "</p>"))

/-- Models `OutputFormatter._get_html_styles` (inert CSS data; braces written as
`\x7b`/`\x7d`). -/
def html_styles : PyStr :=
  pys "\n        body \x7b\n            font-family: -apple-system, BlinkMacSystemFont, 'Segoe UI', Roboto, sans-serif;\n            line-height: 1.6;\n            max-width: 800px;\n            margin: 0 auto;\n            padding: 20px;\n            background-color: #f5f5f5;\n        \x7d\n        \n        .metadata \x7b\n            background: #e3f2fd;\n            border-left: 4px solid #2196f3;\n            padding: 15px;\n            margin-bottom: 20px;\n            border-radius: 4px;\n        \x7d\n        \n        .metadata h3 \x7b\n            margin-top: 0;\n            color: #1976d2;\n        \x7d\n        \n        .content \x7b\n            background: white;\n            padding: 30px;\n            border-radius: 8px;\n            box-shadow: 0 2px 10px rgba(0,0,0,0.1);\n            margin-bottom: 20px;\n        \x7d\n        \n        .content h1, .content h2, .content h3 \x7b\n            color: #333;\n            border-bottom: 2px solid #eee;\n            padding-bottom: 10px;\n        \x7d\n        \n        .content p \x7b\n            margin-bottom: 15px;\n            text-align: justify;\n        \x7d\n        \n        .stats \x7b\n            background: #f1f8e9;\n            border-left: 4px solid #8bc34a;\n            padding: 15px;\n            border-radius: 4px;\n        \x7d\n        \n        .stats h3 \x7b\n            margin-top: 0;\n            color: #689f38;\n        \x7d\n        \n        .stat-item \x7b\n            display: inline-block;\n            background: #dcedc8;\n            padding: 5px 10px;\n            border-radius: 15px;\n            margin-right: 10px;\n            font-size: 14px;\n        \x7d\n        \n        a \x7b\n            color: #1976d2;\n            text-decoration: none;\n        \x7d\n        \n        a:hover \x7b\n            text-decoration: underline;\n        \x7d\n        "

/-- The fixed document head of `_format_as_html`. -/
def html_head_lines : List PyStr :=
  [pys "<!DOCTYPE html>",
   pys "<html lang=\"zh-CN\">",
   pys "<head>",
   pys "    <meta charset=\"UTF-8\">",
   pys "    <meta name=\"viewport\" content=\"width=device-width, initial-scale=1.0\">",
   pys "    <title>网页内容整理结果</title>",
   pys "    <style>",
   html_styles,
   pys "    </style>",
   pys "</head>",
   pys "<body>"]

/-- The metadata panel lines of `_format_as_html`: the values are
interpolated by f-strings, with no escaping. -/
def htmlMetaLines : Option Metadata → List PyStr
  | none => []
  | some m =>
    [pys "    <div class=\"metadata\">", pys "        <h3>📋 信息概览</h3>"]
    ++ (if truthyStr m.source_url then
          [pys "        <p><strong>来源:</strong> <a href=\"" ++ m.source_url.getD []
            ++ pys "\" target=\"_blank\">" ++ m.source_url.getD [] ++ pys "</a></p>"]
        else [])
    ++ (if truthyStr m.timestamp then
          [pys "        <p><strong>生成时间:</strong> " ++ m.timestamp.getD [] ++ pys "</p>"]
        else [])
    ++ (if truthyStr m.template then
          [pys "        <p><strong>风格模板:</strong> " ++ m.template.getD [] ++ pys "</p>"]
        else [])
    ++ [pys "    </div>"]

/-- The statistics panel lines of `_format_as_html`. -/
def htmlStatsLines : Option Metadata → List PyStr
  | none => []
  | some m =>
    if hasStatsKey m then
      [pys "    <div class=\"stats\">", pys "        <h3>📊 统计信息</h3>"]
      ++ (if truthyNat m.word_count then
            [pys "        <span class=\"stat-item\">字数: "
              ++ decRepr (m.word_count.getD 0) ++ pys "</span>"]
          else [])
      ++ (if truthyNat m.char_count then
            [pys "        <span class=\"stat-item\">字符数: "
              ++ decRepr (m.char_count.getD 0) ++ pys "</span>"]
          else [])
      ++ [pys "    </div>"]
    else []

/-- Models `OutputFormatter._format_as_html`. -/
def format_as_html (content : PyStr) (md : Option Metadata) : PyStr :=
  pyJoin (pys "\n")
    (html_head_lines
     ++ htmlMetaLines md
     ++ [pys "    <div class=\"content\">",
         pys "        " ++ convert_markdown_to_html content,
         pys "    </div>"]
     ++ htmlStatsLines md
     ++ [pys "</body>", pys "</html>"])

/-- Count of leading `#` characters. -/
def hashRun : PyStr → Nat
  | '#' :: rest => 1 + hashRun rest
  | _ => 0

/-- Models `re.sub(r'^#{1,6}\s+', '', _, flags=re.MULTILINE)`: at each line
start, one to six `#` followed by at least one whitespace character are
removed together with the whole (greedy, possibly newline-crossing)
whitespace run; whether the position after the match is again a line
start depends on whether the run ended in a newline.  Fuel-structural. -/
def stripHeadMarksGo : Nat → Bool → PyStr → PyStr
  | 0, _, t => t
  | fuel + 1, atStart, t =>
    match t with
    | [] => []
    | c :: cs =>
      let h := hashRun (c :: cs)
      if atStart ∧ 1 ≤ h ∧ h ≤ 6 then
        match (c :: cs).drop h with
        | d :: ds =>
          if isPySpace d then
            let run := (d :: ds).takeWhile isPySpace
            stripHeadMarksGo fuel (run.getLast? = some '\n') ((d :: ds).dropWhile isPySpace)
          else c :: stripHeadMarksGo fuel (c = '\n') cs
        | [] => c :: stripHeadMarksGo fuel (c = '\n') cs
      else c :: stripHeadMarksGo fuel (c = '\n') cs

def stripHeadMarks (t : PyStr) : PyStr := stripHeadMarksGo t.length true t

example : stripHeadMarks (pys "## Title\nbody # x\n### Sub") = pys "Title\nbody # x\nSub" := by decide
example : stripHeadMarks (pys "####### seven") = pys "####### seven" := by decide
example : stripHeadMarks (pys "# \nabc") = pys "abc" := by decide

/-- Offset of the earliest occurrence of a character. -/
def idxOf (target : Char) : PyStr → Option Nat
  | [] => none
  | c :: rest => if c = target then some 0 else (idxOf target rest).map (· + 1)

/-- Models `re.sub(r'\[([^\]]+)\]\(([^\)]+)\)' …, r'\1', _)`: a bracketed
nonempty text immediately followed by a parenthesised nonempty target is
reduced to the text.  Fuel-structural scan. -/
def linkMarkSubGo : Nat → PyStr → PyStr
  | 0, t => t
  | fuel + 1, t =>
    match t with
    | '[' :: rest =>
      (match idxOf ']' rest with
       | some i =>
         if 1 ≤ i then
           match rest.drop (i + 1) with
           | '(' :: after =>
             (match idxOf ')' after with
              | some j =>
                if 1 ≤ j then rest.take i ++ linkMarkSubGo fuel (after.drop (j + 1))
                else '[' :: linkMarkSubGo fuel rest
              | none => '[' :: linkMarkSubGo fuel rest)
           | _ => '[' :: linkMarkSubGo fuel rest
         else '[' :: linkMarkSubGo fuel rest
       | none => '[' :: linkMarkSubGo fuel rest)
    | c :: rest => c :: linkMarkSubGo fuel rest
    | [] => []

def linkMarkSub (t : PyStr) : PyStr := linkMarkSubGo t.length t

/-- Models `OutputFormatter._remove_markdown_formatting`: heading markers, bold,
italic, then link syntax. -/
def remove_markdown_formatting (content : PyStr) : PyStr :=
  linkMarkSub (starSingleSub [] [] (starPairSub [] [] (stripHeadMarks content)))

example : remove_markdown_formatting (pys "**bold** and *italic* and [a link](http://x)")
    = pys "bold and italic and a link" := by decide

/-- Models `OutputFormatter._format_as_text`. -/
def format_as_text (content : PyStr) (md : Option Metadata) : PyStr :=
  let overviewLines : List PyStr := match md with
    | none => []
    | some m =>
      [pys "", pys "【信息概览】"]
      ++ (if truthyStr m.source_url then [pys "来源: " ++ m.source_url.getD []] else [])
      ++ (if truthyStr m.timestamp then [pys "生成时间: " ++ m.timestamp.getD []] else [])
      ++ (if truthyStr m.template then [pys "风格模板: " ++ m.template.getD []] else [])
  let statsLines : List PyStr := match md with
    | none => []
    | some m =>
      if hasStatsKey m then
        [pys "", List.replicate 50 '-', pys "【统计信息】"]
        ++ (if truthyNat m.word_count then [pys "字数: " ++ decRepr (m.word_count.getD 0)] else [])
        ++ (if truthyNat m.char_count then [pys "字符数: " ++ decRepr (m.char_count.getD 0)] else [])
      else []
  pyJoin (pys "\n")
    ([List.replicate 80 '=', pys "网页内容整理结果", List.replicate 80 '=']
     ++ overviewLines
     ++ [pys "", pys "【整理内容】", List.replicate 50 '-', remove_markdown_formatting content]
     ++ statsLines
     ++ [List.replicate 80 '='])

/-!
## JSON rendering (`OutputFormatter._format_as_json`)
-/

/-- JSON values (numbers restricted to the non-negative integers the
formatter produces: character/word/line counts). -/
inductive PyJson where
  | null : PyJson
  | bool (b : Bool) : PyJson
  | num (n : Nat) : PyJson
  | str (s : PyStr) : PyJson
  | arr (elems : List PyJson) : PyJson
  | obj (members : List (PyStr × PyJson)) : PyJson

/-- Lowercase hexadecimal digit. -/
def hexDigitLower (n : Nat) : Char :=
  if n < 10 then Char.ofNat (48 + n) else Char.ofNat (87 + n)

/-- One character under `json.dumps(..., ensure_ascii=False)`: quote and
backslash escaped, the five short control escapes, `\u00XX` for the other
control characters, everything else verbatim. -/
def jsonEscapeChar (c : Char) : PyStr :=
  if c = '"' then ['\\', '"']
  else if c = '\\' then ['\\', '\\']
  else if c = '\n' then ['\\', 'n']
  else if c = '\r' then ['\\', 'r']
  else if c = '\t' then ['\\', 't']
  else if c = '\x08' then ['\\', 'b']
  else if c = '\x0c' then ['\\', 'f']
  else if c.toNat < 0x20 then
    ['\\', 'u', '0', '0', hexDigitLower (c.toNat / 16), hexDigitLower (c.toNat % 16)]
  else [c]

def jsonEscape (s : PyStr) : PyStr := (s.map jsonEscapeChar).flatten

/-- A JSON string literal. -/
def jsonQuote (s : PyStr) : PyStr := '"' :: (jsonEscape s ++ ['"'])

/-- Models `indent=2` padding at nesting level `lvl`. -/
def jsonIndent (lvl : Nat) : PyStr := List.replicate (2 * lvl) ' '

/-- Models `json.dumps(v, ensure_ascii=False, indent=2)` at nesting level `lvl`,
structural on fuel (one unit per nesting level). -/
def jsonDumpVal : Nat → Nat → PyJson → PyStr
  | 0, _, _ => []
  | fuel + 1, lvl, v =>
    match v with
    | .null => pys "null"
    | .bool true => pys "true"
    | .bool false => pys "false"
    | .num n => decRepr n
    | .str s => jsonQuote s
    | .arr [] => pys "[]"
    | .arr es =>
      '[' :: '\n' ::
        (pyJoin (pys ",\n")
          (es.map (fun e => jsonIndent (lvl + 1) ++ jsonDumpVal fuel (lvl + 1) e))
         ++ '\n' :: (jsonIndent lvl ++ [']']))
    | .obj [] => ['{', '}']
    | .obj ms =>
      '{' :: '\n' ::
        (pyJoin (pys ",\n")
          (ms.map (fun kv =>
            jsonIndent (lvl + 1) ++ jsonQuote kv.1 ++ pys ": "
              ++ jsonDumpVal fuel (lvl + 1) kv.2))
         ++ '\n' :: (jsonIndent lvl ++ ['}']))

/-- The metadata dictionary as a JSON value, keys in `add_metadata`'s
insertion order. -/
def metadataJson (m : Metadata) : PyJson :=
  PyJson.obj
    ((match m.timestamp with | some t => [(pys "timestamp", PyJson.str t)] | none => [])
     ++ (match m.char_count with | some n => [(pys "char_count", PyJson.num n)] | none => [])
     ++ (match m.word_count with | some n => [(pys "word_count", PyJson.num n)] | none => [])
     ++ (match m.line_count with | some n => [(pys "line_count", PyJson.num n)] | none => [])
     ++ (match m.source_url with | some u => [(pys "source_url", PyJson.str u)] | none => [])
     ++ (match m.template with | some t => [(pys "template", PyJson.str t)] | none => []))

/-- The `data` dictionary of `_format_as_json`, in insertion order
(`now` models `datetime.now().isoformat()`, captured at render time). -/
def json_data (now content : PyStr) (md : Option Metadata) : PyJson :=
  PyJson.obj
    ([(pys "content", PyJson.str content),
      (pys "timestamp", PyJson.str now),
      (pys "format", PyJson.str (pys "json"))]
     ++ (match md with | some m => [(pys "metadata", metadataJson m)] | none => [])
     ++ [(pys "statistics", PyJson.obj
           [(pys "character_count", PyJson.num content.length),
            (pys "word_count", PyJson.num (pyWordCount content)),
            (pys "line_count", PyJson.num (pyLineCount content))])])

/-- Models `OutputFormatter._format_as_json`: `json.dumps(data,
ensure_ascii=False, indent=2)`.  The values built here nest at most two
objects deep, so fuel 4 always covers them. -/
def format_as_json (now content : PyStr) (md : Option Metadata) : PyStr :=
  jsonDumpVal 4 0 (json_data now content md)

/-!
## Dispatch (`OutputFormatter.format_content`)
-/

/-- The per-format renderers, as fallible functions: a Python renderer
may raise (`Except.error`), which `format_content` catches. -/
structure Renderers where
  markdown : PyStr → Option Metadata → Except Unit PyStr
  html : PyStr → Option Metadata → Except Unit PyStr
  text : PyStr → Option Metadata → Except Unit PyStr
  json : PyStr → Option Metadata → Except Unit PyStr

/-- The `if/elif` chain of `format_content` selecting a renderer. -/
def select_renderer (R : Renderers) : OutputFormat → PyStr → Option Metadata → Except Unit PyStr
  | .markdown => R.markdown
  | .html => R.html
  | .text => R.text
  | .json => R.json

/-- Which format the chain settles on: `None` falls back to the default;
a value that is not one of the four members reaches the warning branch,
which renders Markdown. -/
def dispatch_format (dflt : OutputFormat) : Option FormatArg → OutputFormat
  | none => dflt
  | some (.known f) => f
  | some (.unknown _) => .markdown

/-- Models `OutputFormatter.format_content`: dispatch, then the `try/except`
that returns the original content when the renderer fails. -/
def format_content (R : Renderers) (dflt : OutputFormat) (content : PyStr)
    (fmt : Option FormatArg) (md : Option Metadata) : PyStr :=
  match select_renderer R (dispatch_format dflt fmt) content md with
  | .ok s => s
  | .error _ => content

/-- The renderers of this repository, which are total (`Except.ok`);
`now` is the clock value `_format_as_json` reads. -/
def actual_renderers (now : PyStr) : Renderers :=
  { markdown := fun c md => .ok (format_as_markdown c md),
    html := fun c md => .ok (format_as_html c md),
    text := fun c md => .ok (format_as_text c md),
    json := fun c md => .ok (format_as_json now c md) }

/-- Models `OutputFormatter().format_content` (default format Markdown),
with the render-time clock made explicit. -/
def format_content_actual (now content : PyStr) (fmt : Option FormatArg)
    (md : Option Metadata) : PyStr :=
  format_content (actual_renderers now) OutputFormat.markdown content fmt md

/-!
## Claims C3, C4: dispatch fallbacks and render determinism
-/

/-- C3: For every renderer set, content and metadata: a `format_type`
outside the four known formats is rendered through the Markdown renderer
(the warning branch) instead of failing; and whenever the selected
renderer raises, `format_content` returns the original content. -/
theorem claim_C3_format_fallbacks (R : Renderers) (dflt : OutputFormat)
    (content : PyStr) (md : Option Metadata) :
    (∀ name : PyStr,
        format_content R dflt content (some (FormatArg.unknown name)) md
          = match R.markdown content md with
            | .ok s => s
            | .error _ => content)
    ∧ (∀ (f : OutputFormat) (e : Unit),
        select_renderer R f content md = .error e →
          format_content R dflt content (some (FormatArg.known f)) md = content) := by
  constructor
  · intro name
    rfl
  · intro f e h
    unfold format_content dispatch_format
    rw [h]

/-- A renderer set whose every format raises. -/
def raising_renderers : Renderers :=
  { markdown := fun _ _ => .error (),
    html := fun _ _ => .error (),
    text := fun _ _ => .error (),
    json := fun _ _ => .error () }

/-- Witness for C3's conditional part: with a raising HTML renderer the
original content comes back unchanged. -/
theorem claim_C3_witness :
    select_renderer raising_renderers OutputFormat.html (pys "body text") none
        = Except.error ()
    ∧ format_content raising_renderers OutputFormat.markdown (pys "body text")
        (some (FormatArg.known OutputFormat.html)) none = pys "body text" :=
  ⟨rfl,
   (claim_C3_format_fallbacks raising_renderers OutputFormat.markdown
      (pys "body text") none).2 OutputFormat.html () rfl⟩

/-- C4 counterexample: JSON rendering reads the render-time clock
(`datetime.now().isoformat()`): two calls with identical
`(text, format, metadata)` arguments at different instants return
different strings, so rendering is not a function of those arguments
alone. -/
theorem claim_C4_counterexample :
    format_content_actual (pys "2024-01-01T00:00:00") (pys "x")
        (some (FormatArg.known OutputFormat.json)) none
      ≠ format_content_actual (pys "2024-01-01T00:00:01") (pys "x")
        (some (FormatArg.known OutputFormat.json)) none := by decide

/-- C4 (amended): Markdown, HTML and plain-text rendering (and the
`None`-default and unknown-format paths, which render Markdown) are pure
functions of `(text, format, metadata)` — the render-time clock does not
influence them; only JSON rendering additionally depends on the clock,
and it is deterministic once that instant is fixed. -/
theorem claim_C4_render_deterministic (content : PyStr) (md : Option Metadata)
    (fmt : Option FormatArg) (now₁ now₂ : PyStr)
    (h : fmt ≠ some (FormatArg.known OutputFormat.json)) :
    format_content_actual now₁ content fmt md
      = format_content_actual now₂ content fmt md := by
  match fmt with
  | none => rfl
  | some (FormatArg.unknown name) => rfl
  | some (FormatArg.known OutputFormat.markdown) => rfl
  | some (FormatArg.known OutputFormat.html) => rfl
  | some (FormatArg.known OutputFormat.text) => rfl
  | some (FormatArg.known OutputFormat.json) => exact absurd rfl h

/-- Witness for C4's amended statement at the Markdown format and two
distinct clock values. -/
theorem claim_C4_witness :
    (some (FormatArg.known OutputFormat.markdown)
        ≠ some (FormatArg.known OutputFormat.json))
    ∧ format_content_actual (pys "10:00") (pys "hello")
          (some (FormatArg.known OutputFormat.markdown)) none
        = format_content_actual (pys "11:00") (pys "hello")
          (some (FormatArg.known OutputFormat.markdown)) none :=
  ⟨by decide,
   claim_C4_render_deterministic (pys "hello") none
     (some (FormatArg.known OutputFormat.markdown)) (pys "10:00") (pys "11:00")
     (by decide)⟩

/-!
## Claim C10: HTML rendering interpolates metadata verbatim
-/

/-- If some line of `lines` contains `u` (as `x ++ u ++ y`), then the
newline-join of `lines` contains `u` character-for-character. -/
theorem pyJoin_has_part : ∀ (lines : List PyStr) (x u y : PyStr),
    (x ++ u ++ y) ∈ lines → ∃ l r, pyJoin (pys "\n") lines = l ++ u ++ r := by
  intro lines
  induction lines with
  | nil => intro x u y h; simp at h
  | cons p ps ih =>
    intro x u y h
    rcases List.mem_cons.mp h with hp | hps
    · cases ps with
      | nil => exact ⟨x, y, by simp [pyJoin, hp]⟩
      | cons q qs =>
        refine ⟨x, y ++ pys "\n" ++ pyJoin (pys "\n") (q :: qs), ?_⟩
        simp [pyJoin, ← hp, List.append_assoc]
    · obtain ⟨l, r, hlr⟩ := ih x u y hps
      cases ps with
      | nil => simp at hps
      | cons q qs =>
        refine ⟨p ++ pys "\n" ++ l, r, ?_⟩
        simp [pyJoin, hlr, List.append_assoc]

/-- C10: In HTML rendering the metadata values (`source_url`,
`timestamp`, `template`), when present and nonempty, are interpolated
verbatim: the exact value string occurs character-for-character in the
output (only the content body goes through HTML escaping). -/
theorem claim_C10_html_metadata_verbatim (content : PyStr) (m : Metadata) :
    (∀ u, m.source_url = some u → u ≠ [] →
        ∃ l r, format_as_html content (some m) = l ++ u ++ r)
    ∧ (∀ ts, m.timestamp = some ts → ts ≠ [] →
        ∃ l r, format_as_html content (some m) = l ++ ts ++ r)
    ∧ (∀ tp, m.template = some tp → tp ≠ [] →
        ∃ l r, format_as_html content (some m) = l ++ tp ++ r) := by
  refine ⟨?_, ?_, ?_⟩
  · intro u hu hne
    have htr : truthyStr m.source_url = true := by simp [truthyStr, hu, hne]
    unfold format_as_html
    refine pyJoin_has_part _ (pys "        <p><strong>来源:</strong> <a href=\"") u
      (pys "\" target=\"_blank\">" ++ u ++ pys "</a></p>") ?_
    simp [htmlMetaLines, htr, hu, List.mem_append, truthyStr, hne]
  · intro ts hts hne
    have htr : truthyStr m.timestamp = true := by simp [truthyStr, hts, hne]
    unfold format_as_html
    refine pyJoin_has_part _ (pys "        <p><strong>生成时间:</strong> ") ts
      (pys "</p>") ?_
    simp [htmlMetaLines, htr, hts, List.mem_append, truthyStr, hne]
  · intro tp htp hne
    have htr : truthyStr m.template = true := by simp [truthyStr, htp, hne]
    unfold format_as_html
    refine pyJoin_has_part _ (pys "        <p><strong>风格模板:</strong> ") tp
      (pys "</p>") ?_
    simp [htmlMetaLines, htr, htp, List.mem_append, truthyStr, hne]

/-- A concrete metadata record whose values contain markup characters. -/
def c10Metadata : Metadata :=
  { source_url := some (pys "https://e.com/?q=<script>&r=1"),
    timestamp := some (pys "2024 & <later>"),
    template := some (pys "<b>tpl</b>") }

/-- Witness for C10: all three markup-bearing values occur verbatim in
the rendered document. -/
theorem claim_C10_witness :
    (∃ l r, format_as_html (pys "body") (some c10Metadata)
        = l ++ pys "https://e.com/?q=<script>&r=1" ++ r)
    ∧ (∃ l r, format_as_html (pys "body") (some c10Metadata)
        = l ++ pys "2024 & <later>" ++ r)
    ∧ (∃ l r, format_as_html (pys "body") (some c10Metadata)
        = l ++ pys "<b>tpl</b>" ++ r) :=
  ⟨(claim_C10_html_metadata_verbatim (pys "body") c10Metadata).1 _ rfl (by decide),
   (claim_C10_html_metadata_verbatim (pys "body") c10Metadata).2.1 _ rfl (by decide),
   (claim_C10_html_metadata_verbatim (pys "body") c10Metadata).2.2 _ rfl (by decide)⟩

/-!
## Claim C9: a JSON parser, and the render/parse round trip
-/

/-- RFC 8259 insignificant whitespace. -/
def isJsonWs (c : Char) : Bool := c = ' ' || c = '\t' || c = '\n' || c = '\r'

def skipJsonWs : PyStr → PyStr
  | c :: cs => if isJsonWs c then skipJsonWs cs else c :: cs
  | [] => []

def isDigitCh (c : Char) : Bool := '0' ≤ c && c ≤ '9'

/-- Split off the leading digit run. -/
def grabDigits : PyStr → PyStr × PyStr
  | c :: cs =>
    if isDigitCh c then
      let (ds, r) := grabDigits cs
      (c :: ds, r)
    else ([], c :: cs)
  | [] => ([], [])

def digitsToNat (ds : PyStr) : Nat :=
  ds.foldl (fun acc c => acc * 10 + (c.toNat - 48)) 0

def hexValOf (c : Char) : Option Nat :=
  let n := c.toNat
  if 48 ≤ n ∧ n ≤ 57 then some (n - 48)
  else if 97 ≤ n ∧ n ≤ 102 then some (n - 87)
  else if 65 ≤ n ∧ n ≤ 70 then some (n - 55)
  else none

def unescapeCh (e : Char) : Option Char :=
  if e = 'n' then some '\n'
  else if e = 't' then some '\t'
  else if e = 'r' then some '\r'
  else if e = 'b' then some '\x08'
  else if e = 'f' then some '\x0c'
  else if e = '"' || e = '\\' || e = '/' then some e
  else none

/-- String body parser (after the opening quote), structural on input. -/
def parseJsonStrAux (acc : PyStr) : PyStr → Option (PyStr × PyStr)
  | '"' :: rest => some (acc.reverse, rest)
  | '\\' :: 'u' :: a :: b :: c :: d :: rest =>
    (match hexValOf a, hexValOf b, hexValOf c, hexValOf d with
     | some va, some vb, some vc, some vd =>
       parseJsonStrAux (Char.ofNat (((va * 16 + vb) * 16 + vc) * 16 + vd) :: acc) rest
     | _, _, _, _ => none)
  | '\\' :: e :: rest =>
    (match unescapeCh e with
     | some ch => parseJsonStrAux (ch :: acc) rest
     | none => none)
  | c :: rest => parseJsonStrAux (c :: acc) rest
  | [] => none

/-- The parser's three productions (value, object members, array
elements), folded into one fuel-structural function. -/
inductive JMode where
  | val : JMode
  | members : JMode
  | elems : JMode
deriving DecidableEq, Repr

/-- Result of one production. -/
inductive JOut where
  | v (j : PyJson) : JOut
  | ms (l : List (PyStr × PyJson)) : JOut
  | es (l : List PyJson) : JOut

/-- Recursive-descent JSON parser (one fuel unit per recursion). -/
def parseJ : Nat → JMode → PyStr → Option (JOut × PyStr)
  | 0, _, _ => none
  | fuel + 1, JMode.val, cs =>
    (match skipJsonWs cs with
     | 'n' :: 'u' :: 'l' :: 'l' :: r => some (JOut.v PyJson.null, r)
     | 't' :: 'r' :: 'u' :: 'e' :: r => some (JOut.v (PyJson.bool true), r)
     | 'f' :: 'a' :: 'l' :: 's' :: 'e' :: r => some (JOut.v (PyJson.bool false), r)
     | '"' :: r =>
       (match parseJsonStrAux [] r with
        | some (s, r') => some (JOut.v (PyJson.str s), r')
        | none => none)
     | '{' :: r =>
       (match skipJsonWs r with
        | '}' :: r' => some (JOut.v (PyJson.obj []), r')
        | _ =>
          match parseJ fuel JMode.members r with
          | some (JOut.ms ms, r') => some (JOut.v (PyJson.obj ms), r')
          | _ => none)
     | '[' :: r =>
       (match skipJsonWs r with
        | ']' :: r' => some (JOut.v (PyJson.arr []), r')
        | _ =>
          match parseJ fuel JMode.elems r with
          | some (JOut.es es, r') => some (JOut.v (PyJson.arr es), r')
          | _ => none)
     | c :: r =>
       if isDigitCh c then
         match grabDigits (c :: r) with
         | (ds, r') => some (JOut.v (PyJson.num (digitsToNat ds)), r')
       else none
     | [] => none)
  | fuel + 1, JMode.members, cs =>
    (match skipJsonWs cs with
     | '"' :: r =>
       (match parseJsonStrAux [] r with
        | some (key, r1) =>
          (match skipJsonWs r1 with
           | ':' :: r2 =>
             (match parseJ fuel JMode.val r2 with
              | some (JOut.v v, r3) =>
                (match skipJsonWs r3 with
                 | ',' :: r4 =>
                   (match parseJ fuel JMode.members r4 with
                    | some (JOut.ms ms, r5) => some (JOut.ms ((key, v) :: ms), r5)
                    | _ => none)
                 | '}' :: r4 => some (JOut.ms [(key, v)], r4)
                 | _ => none)
              | _ => none)
           | _ => none)
        | none => none)
     | _ => none)
  | fuel + 1, JMode.elems, cs =>
    (match parseJ fuel JMode.val cs with
     | some (JOut.v v, r) =>
       (match skipJsonWs r with
        | ',' :: r' =>
          (match parseJ fuel JMode.elems r' with
           | some (JOut.es es, r'') => some (JOut.es (v :: es), r'')
           | _ => none)
        | ']' :: r' => some (JOut.es [v], r')
        | _ => none)
     | _ => none)

/-- Models `json.loads`: parse one value and insist on only whitespace after it. -/
def pyJsonLoads (cs : PyStr) : Option PyJson :=
  match parseJ (cs.length + 16) JMode.val cs with
  | some (JOut.v j, r) => if skipJsonWs r = [] then some j else none
  | _ => none

/-!
### Decimal rendering inverts through the parser's digit reader
-/

theorem decDigitsAux_acc (fuel : Nat) : ∀ (n : Nat) (acc : PyStr),
    decDigitsAux fuel n acc = decDigitsAux fuel n [] ++ acc := by
  induction fuel with
  | zero => intro n acc; simp [decDigitsAux]
  | succ fuel ih =>
    intro n acc
    by_cases h : n < 10
    · simp [decDigitsAux, h]
    · simp only [decDigitsAux, h, if_false]
      rw [ih (n / 10) (Char.ofNat (48 + n % 10) :: acc),
          ih (n / 10) (Char.ofNat (48 + n % 10) :: [])]
      simp

theorem decDigitsAux_fuel : ∀ (n fuel : Nat), n < fuel →
    decDigitsAux fuel n [] = decRepr n := by
  intro n
  induction n using Nat.strongRecOn with
  | _ n ih =>
    intro fuel hf
    match fuel, hf with
    | fuel + 1, hf =>
      by_cases h : n < 10
      · simp [decDigitsAux, decRepr, h]
      · have hdiv : n / 10 < n := Nat.div_lt_self (by omega) (by omega)
        simp only [decDigitsAux, decRepr, h, if_false]
        rw [decDigitsAux_acc fuel, decDigitsAux_acc n]
        rw [ih (n / 10) hdiv fuel (by omega), ih (n / 10) hdiv n (by omega)]

/-- Models `decRepr` in last-digit form. -/
theorem decRepr_unfold (n : Nat) :
    decRepr n = (if n < 10 then [] else decRepr (n / 10)) ++ [Char.ofNat (48 + n % 10)] := by
  by_cases h : n < 10
  · simp [decRepr, decDigitsAux, h]
  · have h1 : decRepr n = decDigitsAux n (n / 10) [Char.ofNat (48 + n % 10)] := by
      simp only [decRepr, decDigitsAux, h, if_false]
    rw [h1, decDigitsAux_acc n, decDigitsAux_fuel (n / 10) n (by omega)]
    simp [h]

theorem digitCh_spec (k : Nat) (h : k < 10) :
    isDigitCh (Char.ofNat (48 + k)) = true ∧ (Char.ofNat (48 + k)).toNat = 48 + k := by
  revert h
  revert k
  show ∀ k, k < 10 →
    isDigitCh (Char.ofNat (48 + k)) = true ∧ (Char.ofNat (48 + k)).toNat = 48 + k
  decide

theorem decRepr_ne_nil (n : Nat) : decRepr n ≠ [] := by
  rw [decRepr_unfold]; simp

theorem decRepr_digits (n : Nat) : ∀ c ∈ decRepr n, isDigitCh c = true := by
  induction n using Nat.strongRecOn with
  | _ n ih =>
    rw [decRepr_unfold]
    intro c hc
    rcases List.mem_append.mp hc with h | h
    · by_cases h10 : n < 10
      · simp [h10] at h
      · exact ih (n / 10) (Nat.div_lt_self (by omega) (by omega)) c (by simpa [h10] using h)
    · rw [List.mem_singleton] at h
      subst h
      exact (digitCh_spec (n % 10) (Nat.mod_lt _ (by omega))).1

theorem digitsToNat_decRepr (n : Nat) : digitsToNat (decRepr n) = n := by
  induction n using Nat.strongRecOn with
  | _ n ih =>
    rw [decRepr_unfold]
    unfold digitsToNat
    rw [List.foldl_append]
    by_cases h : n < 10
    · simp only [if_pos h, List.foldl_nil, List.foldl_cons]
      rw [(digitCh_spec (n % 10) (Nat.mod_lt _ (by omega))).2]
      omega
    · simp only [if_neg h, List.foldl_cons, List.foldl_nil]
      have := ih (n / 10) (Nat.div_lt_self (by omega) (by omega))
      unfold digitsToNat at this
      rw [this, (digitCh_spec (n % 10) (Nat.mod_lt _ (by omega))).2]
      omega

/-- Models `grabDigits` stops immediately on a non-digit (or empty) input. -/
theorem grabDigits_stop : ∀ (r : PyStr),
    (∀ c rest, r = c :: rest → isDigitCh c = false) → grabDigits r = ([], r) := by
  intro r h
  match r with
  | [] => rfl
  | c :: rest => simp [grabDigits, h c rest rfl]

/-- Models `grabDigits` consumes exactly a leading digit run. -/
theorem grabDigits_run : ∀ (ds : PyStr), (∀ c ∈ ds, isDigitCh c = true) →
    ∀ (r : PyStr), grabDigits r = ([], r) → grabDigits (ds ++ r) = (ds, r) := by
  intro ds
  induction ds with
  | nil => intro _ r hr; simpa using hr
  | cons d tl ih =>
    intro hall r hr
    obtain ⟨hd, htl⟩ := List.forall_mem_cons.mp hall
    have hrec := ih htl r hr
    simp [grabDigits, hd, hrec]

/-!
### String escaping inverts through the parser's string reader
-/

theorem hexValOf_hexDigitLower (k : Nat) (h : k < 16) :
    hexValOf (hexDigitLower k) = some k := by
  revert h
  revert k
  show ∀ k, k < 16 → hexValOf (hexDigitLower k) = some k
  decide

/-- Parsing one escaped character undoes `jsonEscapeChar`. -/
theorem parseJsonStrAux_escape_char (c : Char) (acc rest : PyStr) :
    parseJsonStrAux acc (jsonEscapeChar c ++ rest) = parseJsonStrAux (c :: acc) rest := by
  unfold jsonEscapeChar
  by_cases h1 : c = '"'
  · subst h1; rfl
  · simp only [h1, if_false]
    by_cases h2 : c = '\\'
    · subst h2; rfl
    · simp only [h2, if_false]
      by_cases h3 : c = '\n'
      · subst h3; rfl
      · simp only [h3, if_false]
        by_cases h4 : c = '\r'
        · subst h4; rfl
        · simp only [h4, if_false]
          by_cases h5 : c = '\t'
          · subst h5; rfl
          · simp only [h5, if_false]
            by_cases h6 : c = '\x08'
            · subst h6; rfl
            · simp only [h6, if_false]
              by_cases h7 : c = '\x0c'
              · subst h7; rfl
              · simp only [h7, if_false]
                by_cases h8 : c.toNat < 0x20
                · simp only [h8, if_true, List.cons_append, List.nil_append]
                  have hq : c.toNat / 16 < 16 := by omega
                  have hr : c.toNat % 16 < 16 := Nat.mod_lt _ (by omega)
                  show (match hexValOf '0', hexValOf '0',
                          hexValOf (hexDigitLower (c.toNat / 16)),
                          hexValOf (hexDigitLower (c.toNat % 16)) with
                        | some va, some vb, some vc, some vd =>
                          parseJsonStrAux
                            (Char.ofNat (((va * 16 + vb) * 16 + vc) * 16 + vd) :: acc) rest
                        | _, _, _, _ => none) = parseJsonStrAux (c :: acc) rest
                  rw [hexValOf_hexDigitLower _ hq, hexValOf_hexDigitLower _ hr]
                  have h0 : hexValOf '0' = some 0 := by decide
                  rw [h0]
                  have harith : ((0 * 16 + 0) * 16 + c.toNat / 16) * 16 + c.toNat % 16
                      = c.toNat := by omega
                  show parseJsonStrAux
                      (Char.ofNat (((0 * 16 + 0) * 16 + c.toNat / 16) * 16 + c.toNat % 16) :: acc)
                      rest = parseJsonStrAux (c :: acc) rest
                  rw [harith, Char.ofNat_toNat]
                · simp only [h8, if_false, List.cons_append, List.nil_append]
                  rw [parseJsonStrAux.eq_def]
                  have hne : c ≠ '\\' := h2
                  have hnq : c ≠ '"' := h1
                  simp [hnq, hne]

/-- Parsing an escaped run stops exactly at the closing quote. -/
theorem parseJsonStrAux_escape : ∀ (s : PyStr) (acc rest : PyStr),
    parseJsonStrAux acc (jsonEscape s ++ '"' :: rest)
      = some (acc.reverse ++ s, rest) := by
  intro s
  induction s with
  | nil => intro acc rest; simp [jsonEscape, parseJsonStrAux]
  | cons c cs ih =>
    intro acc rest
    have hstep : jsonEscape (c :: cs) = jsonEscapeChar c ++ jsonEscape cs := by
      simp [jsonEscape]
    rw [hstep, List.append_assoc, parseJsonStrAux_escape_char, ih]
    simp

/-!
### The rendered document, flattened
-/

def jsonSeg0 : PyStr := pys "\x7b\n  \"content\": \""
def jsonSeg1 : PyStr := pys "\",\n  \"timestamp\": \""
def jsonSeg2 : PyStr := pys "\",\n  \"format\": \"json\",\n  \"statistics\": \x7b\n    \"character_count\": "
def jsonSeg3 : PyStr := pys ",\n    \"word_count\": "
def jsonSeg4 : PyStr := pys ",\n    \"line_count\": "
def jsonSeg5 : PyStr := pys "\n  \x7d\n\x7d"

/-- Models `_format_as_json` output (no metadata), as literal segments around the
escaped content, escaped timestamp, and the three statistic numbers. -/
theorem format_as_json_shape (now content : PyStr) :
    format_as_json now content none
      = jsonSeg0 ++ (jsonEscape content ++ (jsonSeg1 ++ (jsonEscape now ++ (jsonSeg2
          ++ (decRepr content.length ++ (jsonSeg3 ++ (decRepr (pyWordCount content)
          ++ (jsonSeg4 ++ (decRepr (pyLineCount content) ++ jsonSeg5))))))))) := by
  show jsonDumpVal 4 0 (json_data now content none)
      = jsonSeg0 ++ (jsonEscape content ++ (jsonSeg1 ++ (jsonEscape now ++ (jsonSeg2
          ++ (decRepr content.length ++ (jsonSeg3 ++ (decRepr (pyWordCount content)
          ++ (jsonSeg4 ++ (decRepr (pyLineCount content) ++ jsonSeg5)))))))))
  rw [show (4 : Nat) = 3 + 1 from rfl]
  simp only [jsonDumpVal, json_data, pyJoin, List.map, jsonQuote, jsonIndent,
    jsonSeg0, jsonSeg1, jsonSeg2, jsonSeg3, jsonSeg4, jsonSeg5,
    List.append_assoc, List.cons_append, List.nil_append]
  rfl

/-!
### The parse walk
-/

theorem digitCh_not_ws (c : Char) (h : isDigitCh c = true) : isJsonWs c = false := by
  simp only [isJsonWs, Bool.or_eq_false_iff, decide_eq_false_iff_not]
  refine ⟨⟨⟨?_, ?_⟩, ?_⟩, ?_⟩ <;> (rintro rfl; revert h; decide)

theorem digitCh_facts (c : Char) (h : isDigitCh c = true) :
    c ≠ 'n' ∧ c ≠ 't' ∧ c ≠ 'f' ∧ c ≠ '"' ∧ c ≠ '{' ∧ c ≠ '[' := by
  refine ⟨?_, ?_, ?_, ?_, ?_, ?_⟩ <;> (rintro rfl; revert h; decide)

/-- The parser's number branch inverts `decRepr`: reading the rendered
digits of `n` (after the `": "` separator's space) yields `n` back,
stopping exactly at a non-digit remainder. -/
theorem parseJ_val_num (f n : Nat) (rest : PyStr)
    (hrest : ∀ c r, rest = c :: r → isDigitCh c = false) :
    parseJ (f + 1) JMode.val (' ' :: (decRepr n ++ rest))
      = some (JOut.v (PyJson.num n), rest) := by
  obtain ⟨d, ds, hd⟩ : ∃ d ds, decRepr n = d :: ds := by
    cases h : decRepr n with
    | nil => exact absurd h (decRepr_ne_nil n)
    | cons d ds => exact ⟨d, ds, rfl⟩
  have hdig : isDigitCh d = true := decRepr_digits n d (by rw [hd]; exact List.mem_cons_self d ds)
  have hdws : isJsonWs d = false := digitCh_not_ws d hdig
  obtain ⟨hn, ht, hf, hq, hb, hk⟩ := digitCh_facts d hdig
  have hskip : skipJsonWs (' ' :: (decRepr n ++ rest)) = d :: (ds ++ rest) := by
    rw [hd]
    show skipJsonWs (' ' :: (d :: ds ++ rest)) = d :: (ds ++ rest)
    rw [skipJsonWs, if_pos (by decide), List.cons_append, skipJsonWs, if_neg (by simp [hdws])]
  have hgrab : grabDigits (d :: (ds ++ rest)) = (d :: ds, rest) := by
    have h1 : grabDigits (decRepr n ++ rest) = (decRepr n, rest) :=
      grabDigits_run (decRepr n) (decRepr_digits n) rest
        (grabDigits_stop rest hrest)
    rw [hd, List.cons_append] at h1
    exact h1
  simp only [parseJ, hskip]
  split <;> simp_all [digitsToNat_decRepr]
  rw [← hd]
  exact digitsToNat_decRepr n

theorem parseJ_val_str (f : Nat) (s rest : PyStr) :
    parseJ (f + 1) JMode.val (' ' :: ('"' :: (jsonEscape s ++ ('"' :: rest))))
      = some (JOut.v (PyJson.str s), rest) := by
  show (match parseJsonStrAux [] (jsonEscape s ++ '"' :: rest) with
        | some (s', r') => some (JOut.v (PyJson.str s'), r')
        | none => none) = some (JOut.v (PyJson.str s), rest)
  rw [parseJsonStrAux_escape]
  rfl

theorem seg5_head : ∀ c r, jsonSeg5 = c :: r → isDigitCh c = false := by
  intro c r h
  rw [show jsonSeg5 = '\n' :: pys "  \x7d\n\x7d" from rfl] at h
  injection h with h1 _
  subst h1
  decide

theorem seg3_append_head (X : PyStr) :
    ∀ c r, jsonSeg3 ++ X = c :: r → isDigitCh c = false := by
  intro c r h
  rw [show jsonSeg3 ++ X = ',' :: (pys "\n    \"word_count\": " ++ X) from rfl] at h
  injection h with h1 _
  subst h1
  decide

theorem seg4_append_head (X : PyStr) :
    ∀ c r, jsonSeg4 ++ X = c :: r → isDigitCh c = false := by
  intro c r h
  rw [show jsonSeg4 ++ X = ',' :: (pys "\n    \"line_count\": " ++ X) from rfl] at h
  injection h with h1 _
  subst h1
  decide

theorem parseJ_mem_line_count (f : Nat) (content : PyStr) :
    parseJ (f + 1 + 1) JMode.members
      (pys "\n    \"line_count\": " ++ (decRepr (pyLineCount content) ++ jsonSeg5))
      = some (JOut.ms [(pys "line_count", PyJson.num (pyLineCount content))], pys "\n\x7d") := by
  show (match parseJ (f + 1) JMode.val (' ' :: (decRepr (pyLineCount content) ++ jsonSeg5)) with
        | some (JOut.v v, r3) =>
          (match skipJsonWs r3 with
           | ',' :: r4 =>
             (match parseJ (f + 1) JMode.members r4 with
              | some (JOut.ms ms, r5) => some (JOut.ms ((pys "line_count", v) :: ms), r5)
              | _ => none)
           | '}' :: r4 => some (JOut.ms [(pys "line_count", v)], r4)
           | _ => none)
        | _ => none)
      = some (JOut.ms [(pys "line_count", PyJson.num (pyLineCount content))], pys "\n\x7d")
  rw [parseJ_val_num f (pyLineCount content) jsonSeg5 seg5_head]
  rfl

theorem parseJ_mem_word_count (f : Nat) (content : PyStr) :
    parseJ (f + 1 + 1 + 1) JMode.members
      (pys "\n    \"word_count\": "
        ++ (decRepr (pyWordCount content)
        ++ (jsonSeg4 ++ (decRepr (pyLineCount content) ++ jsonSeg5))))
      = some (JOut.ms [(pys "word_count", PyJson.num (pyWordCount content)),
                       (pys "line_count", PyJson.num (pyLineCount content))],
              pys "\n\x7d") := by
  show (match parseJ (f + 1 + 1) JMode.val
          (' ' :: (decRepr (pyWordCount content)
            ++ (jsonSeg4 ++ (decRepr (pyLineCount content) ++ jsonSeg5)))) with
        | some (JOut.v v, r3) =>
          (match skipJsonWs r3 with
           | ',' :: r4 =>
             (match parseJ (f + 1 + 1) JMode.members r4 with
              | some (JOut.ms ms, r5) => some (JOut.ms ((pys "word_count", v) :: ms), r5)
              | _ => none)
           | '}' :: r4 => some (JOut.ms [(pys "word_count", v)], r4)
           | _ => none)
        | _ => none)
      = some (JOut.ms [(pys "word_count", PyJson.num (pyWordCount content)),
                       (pys "line_count", PyJson.num (pyLineCount content))],
              pys "\n\x7d")
  rw [parseJ_val_num (f + 1) (pyWordCount content) _ (seg4_append_head _)]
  show (match parseJ (f + 1 + 1) JMode.members
          (pys "\n    \"line_count\": " ++ (decRepr (pyLineCount content) ++ jsonSeg5)) with
        | some (JOut.ms ms, r5) =>
          some (JOut.ms ((pys "word_count", PyJson.num (pyWordCount content)) :: ms), r5)
        | _ => none)
      = some (JOut.ms [(pys "word_count", PyJson.num (pyWordCount content)),
                       (pys "line_count", PyJson.num (pyLineCount content))],
              pys "\n\x7d")
  rw [parseJ_mem_line_count f content]

theorem parseJ_mem_char_count (f : Nat) (content : PyStr) :
    parseJ (f + 1 + 1 + 1 + 1) JMode.members
      (pys "\n    \"character_count\": "
        ++ (decRepr content.length
        ++ (jsonSeg3 ++ (decRepr (pyWordCount content)
        ++ (jsonSeg4 ++ (decRepr (pyLineCount content) ++ jsonSeg5))))))
      = some (JOut.ms [(pys "character_count", PyJson.num content.length),
                       (pys "word_count", PyJson.num (pyWordCount content)),
                       (pys "line_count", PyJson.num (pyLineCount content))],
              pys "\n\x7d") := by
  show (match parseJ (f + 1 + 1 + 1) JMode.val
          (' ' :: (decRepr content.length
            ++ (jsonSeg3 ++ (decRepr (pyWordCount content)
            ++ (jsonSeg4 ++ (decRepr (pyLineCount content) ++ jsonSeg5)))))) with
        | some (JOut.v v, r3) =>
          (match skipJsonWs r3 with
           | ',' :: r4 =>
             (match parseJ (f + 1 + 1 + 1) JMode.members r4 with
              | some (JOut.ms ms, r5) => some (JOut.ms ((pys "character_count", v) :: ms), r5)
              | _ => none)
           | '}' :: r4 => some (JOut.ms [(pys "character_count", v)], r4)
           | _ => none)
        | _ => none)
      = some (JOut.ms [(pys "character_count", PyJson.num content.length),
                       (pys "word_count", PyJson.num (pyWordCount content)),
                       (pys "line_count", PyJson.num (pyLineCount content))],
              pys "\n\x7d")
  rw [parseJ_val_num (f + 1 + 1) content.length _ (seg3_append_head _)]
  show (match parseJ (f + 1 + 1 + 1) JMode.members
          (pys "\n    \"word_count\": "
            ++ (decRepr (pyWordCount content)
            ++ (jsonSeg4 ++ (decRepr (pyLineCount content) ++ jsonSeg5)))) with
        | some (JOut.ms ms, r5) =>
          some (JOut.ms ((pys "character_count", PyJson.num content.length) :: ms), r5)
        | _ => none)
      = some (JOut.ms [(pys "character_count", PyJson.num content.length),
                       (pys "word_count", PyJson.num (pyWordCount content)),
                       (pys "line_count", PyJson.num (pyLineCount content))],
              pys "\n\x7d")
  rw [parseJ_mem_word_count f content]

/-- The three statistics, as the inner JSON object's members. -/
def statsMembers (content : PyStr) : List (PyStr × PyJson) :=
  [(pys "character_count", PyJson.num content.length),
   (pys "word_count", PyJson.num (pyWordCount content)),
   (pys "line_count", PyJson.num (pyLineCount content))]

theorem parseJ_mem_statistics (f : Nat) (content : PyStr) :
    parseJ (f + 1 + 1 + 1 + 1 + 1 + 1) JMode.members
      (pys "\n  \"statistics\": \x7b\n    \"character_count\": "
        ++ (decRepr content.length
        ++ (jsonSeg3 ++ (decRepr (pyWordCount content)
        ++ (jsonSeg4 ++ (decRepr (pyLineCount content) ++ jsonSeg5))))))
      = some (JOut.ms [(pys "statistics", PyJson.obj (statsMembers content))], []) := by
  show (match (match parseJ (f + 1 + 1 + 1 + 1) JMode.members
                 (pys "\n    \"character_count\": "
                   ++ (decRepr content.length
                   ++ (jsonSeg3 ++ (decRepr (pyWordCount content)
                   ++ (jsonSeg4 ++ (decRepr (pyLineCount content) ++ jsonSeg5)))))) with
               | some (JOut.ms ms, r') => some (JOut.v (PyJson.obj ms), r')
               | _ => none) with
        | some (JOut.v v, r3) =>
          (match skipJsonWs r3 with
           | ',' :: r4 =>
             (match parseJ (f + 1 + 1 + 1 + 1 + 1) JMode.members r4 with
              | some (JOut.ms ms, r5) => some (JOut.ms ((pys "statistics", v) :: ms), r5)
              | _ => none)
           | '}' :: r4 => some (JOut.ms [(pys "statistics", v)], r4)
           | _ => none)
        | _ => none)
      = some (JOut.ms [(pys "statistics", PyJson.obj (statsMembers content))], [])
  rw [parseJ_mem_char_count f content]
  rfl

theorem parseJ_mem_format (f : Nat) (content : PyStr) :
    parseJ (f + 1 + 1 + 1 + 1 + 1 + 1 + 1) JMode.members
      (pys "\n  \"format\": \"json\",\n  \"statistics\": \x7b\n    \"character_count\": "
        ++ (decRepr content.length
        ++ (jsonSeg3 ++ (decRepr (pyWordCount content)
        ++ (jsonSeg4 ++ (decRepr (pyLineCount content) ++ jsonSeg5))))))
      = some (JOut.ms [(pys "format", PyJson.str (pys "json")),
                       (pys "statistics", PyJson.obj (statsMembers content))], []) := by
  show (match parseJ (f + 1 + 1 + 1 + 1 + 1 + 1) JMode.members
          (pys "\n  \"statistics\": \x7b\n    \"character_count\": "
            ++ (decRepr content.length
            ++ (jsonSeg3 ++ (decRepr (pyWordCount content)
            ++ (jsonSeg4 ++ (decRepr (pyLineCount content) ++ jsonSeg5)))))) with
        | some (JOut.ms ms, r5) =>
          some (JOut.ms ((pys "format", PyJson.str (pys "json")) :: ms), r5)
        | _ => none)
      = some (JOut.ms [(pys "format", PyJson.str (pys "json")),
                       (pys "statistics", PyJson.obj (statsMembers content))], [])
  rw [parseJ_mem_statistics f content]

theorem parseJ_mem_timestamp (f : Nat) (now content : PyStr) :
    parseJ (f + 1 + 1 + 1 + 1 + 1 + 1 + 1 + 1) JMode.members
      (pys "\n  \"timestamp\": \""
        ++ (jsonEscape now
        ++ (jsonSeg2 ++ (decRepr content.length
        ++ (jsonSeg3 ++ (decRepr (pyWordCount content)
        ++ (jsonSeg4 ++ (decRepr (pyLineCount content) ++ jsonSeg5))))))))
      = some (JOut.ms [(pys "timestamp", PyJson.str now),
                       (pys "format", PyJson.str (pys "json")),
                       (pys "statistics", PyJson.obj (statsMembers content))], []) := by
  show (match parseJ (f + 1 + 1 + 1 + 1 + 1 + 1 + 1) JMode.val
          (' ' :: ('"' :: (jsonEscape now
            ++ ('"' :: (pys ",\n  \"format\": \"json\",\n  \"statistics\": \x7b\n    \"character_count\": "
              ++ (decRepr content.length
              ++ (jsonSeg3 ++ (decRepr (pyWordCount content)
              ++ (jsonSeg4 ++ (decRepr (pyLineCount content) ++ jsonSeg5)))))))))) with
        | some (JOut.v v, r3) =>
          (match skipJsonWs r3 with
           | ',' :: r4 =>
             (match parseJ (f + 1 + 1 + 1 + 1 + 1 + 1 + 1) JMode.members r4 with
              | some (JOut.ms ms, r5) => some (JOut.ms ((pys "timestamp", v) :: ms), r5)
              | _ => none)
           | '}' :: r4 => some (JOut.ms [(pys "timestamp", v)], r4)
           | _ => none)
        | _ => none)
      = some (JOut.ms [(pys "timestamp", PyJson.str now),
                       (pys "format", PyJson.str (pys "json")),
                       (pys "statistics", PyJson.obj (statsMembers content))], [])
  rw [parseJ_val_str (f + 1 + 1 + 1 + 1 + 1 + 1) now]
  show (match parseJ (f + 1 + 1 + 1 + 1 + 1 + 1 + 1) JMode.members
          (pys "\n  \"format\": \"json\",\n  \"statistics\": \x7b\n    \"character_count\": "
            ++ (decRepr content.length
            ++ (jsonSeg3 ++ (decRepr (pyWordCount content)
            ++ (jsonSeg4 ++ (decRepr (pyLineCount content) ++ jsonSeg5)))))) with
        | some (JOut.ms ms, r5) =>
          some (JOut.ms ((pys "timestamp", PyJson.str now) :: ms), r5)
        | _ => none)
      = some (JOut.ms [(pys "timestamp", PyJson.str now),
                       (pys "format", PyJson.str (pys "json")),
                       (pys "statistics", PyJson.obj (statsMembers content))], [])
  rw [parseJ_mem_format f content]

theorem parseJ_mem_content (f : Nat) (now content : PyStr) :
    parseJ (f + 1 + 1 + 1 + 1 + 1 + 1 + 1 + 1 + 1) JMode.members
      (pys "\n  \"content\": \""
        ++ (jsonEscape content
        ++ (jsonSeg1 ++ (jsonEscape now
        ++ (jsonSeg2 ++ (decRepr content.length
        ++ (jsonSeg3 ++ (decRepr (pyWordCount content)
        ++ (jsonSeg4 ++ (decRepr (pyLineCount content) ++ jsonSeg5))))))))))
      = some (JOut.ms [(pys "content", PyJson.str content),
                       (pys "timestamp", PyJson.str now),
                       (pys "format", PyJson.str (pys "json")),
                       (pys "statistics", PyJson.obj (statsMembers content))], []) := by
  show (match parseJ (f + 1 + 1 + 1 + 1 + 1 + 1 + 1 + 1) JMode.val
          (' ' :: ('"' :: (jsonEscape content
            ++ ('"' :: (pys ",\n  \"timestamp\": \""
              ++ (jsonEscape now
              ++ (jsonSeg2 ++ (decRepr content.length
              ++ (jsonSeg3 ++ (decRepr (pyWordCount content)
              ++ (jsonSeg4 ++ (decRepr (pyLineCount content) ++ jsonSeg5)))))))))))) with
        | some (JOut.v v, r3) =>
          (match skipJsonWs r3 with
           | ',' :: r4 =>
             (match parseJ (f + 1 + 1 + 1 + 1 + 1 + 1 + 1 + 1) JMode.members r4 with
              | some (JOut.ms ms, r5) => some (JOut.ms ((pys "content", v) :: ms), r5)
              | _ => none)
           | '}' :: r4 => some (JOut.ms [(pys "content", v)], r4)
           | _ => none)
        | _ => none)
      = some (JOut.ms [(pys "content", PyJson.str content),
                       (pys "timestamp", PyJson.str now),
                       (pys "format", PyJson.str (pys "json")),
                       (pys "statistics", PyJson.obj (statsMembers content))], [])
  rw [parseJ_val_str (f + 1 + 1 + 1 + 1 + 1 + 1 + 1) content]
  show (match parseJ (f + 1 + 1 + 1 + 1 + 1 + 1 + 1 + 1) JMode.members
          (pys "\n  \"timestamp\": \""
            ++ (jsonEscape now
            ++ (jsonSeg2 ++ (decRepr content.length
            ++ (jsonSeg3 ++ (decRepr (pyWordCount content)
            ++ (jsonSeg4 ++ (decRepr (pyLineCount content) ++ jsonSeg5)))))))) with
        | some (JOut.ms ms, r5) =>
          some (JOut.ms ((pys "content", PyJson.str content) :: ms), r5)
        | _ => none)
      = some (JOut.ms [(pys "content", PyJson.str content),
                       (pys "timestamp", PyJson.str now),
                       (pys "format", PyJson.str (pys "json")),
                       (pys "statistics", PyJson.obj (statsMembers content))], [])
  rw [parseJ_mem_timestamp f now content]

theorem parseJ_doc (f : Nat) (now content : PyStr) :
    parseJ (f + 1 + 1 + 1 + 1 + 1 + 1 + 1 + 1 + 1 + 1) JMode.val
      (jsonSeg0 ++ (jsonEscape content ++ (jsonSeg1 ++ (jsonEscape now ++ (jsonSeg2
        ++ (decRepr content.length ++ (jsonSeg3 ++ (decRepr (pyWordCount content)
        ++ (jsonSeg4 ++ (decRepr (pyLineCount content) ++ jsonSeg5))))))))))
      = some (JOut.v (json_data now content none), []) := by
  show (match parseJ (f + 1 + 1 + 1 + 1 + 1 + 1 + 1 + 1 + 1) JMode.members
          (pys "\n  \"content\": \""
            ++ (jsonEscape content
            ++ (jsonSeg1 ++ (jsonEscape now
            ++ (jsonSeg2 ++ (decRepr content.length
            ++ (jsonSeg3 ++ (decRepr (pyWordCount content)
            ++ (jsonSeg4 ++ (decRepr (pyLineCount content) ++ jsonSeg5)))))))))) with
        | some (JOut.ms ms, r') => some (JOut.v (PyJson.obj ms), r')
        | _ => none)
      = some (JOut.v (json_data now content none), [])
  rw [parseJ_mem_content f now content]
  rfl

/-- Field access on a parsed JSON object. -/
def objLookup (key : PyStr) : PyJson → Option PyJson
  | PyJson.obj ms => (ms.find? (fun kv => kv.1 = key)).map (fun kv => kv.2)
  | _ => none

/-- C9: JSON round trip: for every text (and render-time timestamp),
parsing the string `_format_as_json` returns yields exactly the rendered
object; in particular its `content` field is the input text and its
`statistics.character_count` is the text's length. -/
theorem claim_C9_json_roundtrip (now content : PyStr) :
    pyJsonLoads (format_as_json now content none) = some (json_data now content none)
    ∧ objLookup (pys "content") (json_data now content none)
        = some (PyJson.str content)
    ∧ (objLookup (pys "statistics") (json_data now content none)).bind
        (objLookup (pys "character_count"))
      = some (PyJson.num content.length) := by
  refine ⟨?_, rfl, rfl⟩
  unfold pyJsonLoads
  rw [format_as_json_shape]
  have h := parseJ_doc
    ((jsonSeg0 ++ (jsonEscape content ++ (jsonSeg1 ++ (jsonEscape now ++ (jsonSeg2
      ++ (decRepr content.length ++ (jsonSeg3 ++ (decRepr (pyWordCount content)
      ++ (jsonSeg4 ++ (decRepr (pyLineCount content) ++ jsonSeg5)))))))))).length + 6)
    now content
  have h' : parseJ
      ((jsonSeg0 ++ (jsonEscape content ++ (jsonSeg1 ++ (jsonEscape now ++ (jsonSeg2
        ++ (decRepr content.length ++ (jsonSeg3 ++ (decRepr (pyWordCount content)
        ++ (jsonSeg4 ++ (decRepr (pyLineCount content) ++ jsonSeg5)))))))))).length + 16)
      JMode.val
      (jsonSeg0 ++ (jsonEscape content ++ (jsonSeg1 ++ (jsonEscape now ++ (jsonSeg2
        ++ (decRepr content.length ++ (jsonSeg3 ++ (decRepr (pyWordCount content)
        ++ (jsonSeg4 ++ (decRepr (pyLineCount content) ++ jsonSeg5))))))))))
      = some (JOut.v (json_data now content none), []) := h
  rw [h']
  rfl
